import Mathlib

/-!
Verification development for the PO-receipt workflow script
(POReceiptShortcut.js).  The JavaScript workflow is shallowly embedded:
promise-based remote calls become oracle functions supplied in an
environment record, the mutable instance state (the tracked equipment
records) is threaded explicitly, and the sequence of issued MI requests is
collected in a call trace.  Numeric quantity handling follows the script
helper that filters a string to digits, dot and minus and parses the
longest decimal prefix, with 0 as the fallback.
-/

namespace POReceipt

/-- Rational numbers stand in for JavaScript numeric values; every quantity
the workflow manipulates is a finite decimal, so no precision is lost. -/
abbrev Q := Rat

/-- Outcome of one remote MI request as the script observes it: the promise
either resolves (possibly without an item payload) or rejects carrying an
optional HTTP-like status code. -/
inductive MIResp (A : Type) where
  | success (item : Option A)
  | failure (statusCode : Option Int)
deriving DecidableEq, Repr

/-- One issued MI request: program, transaction and the key-value record.
Keys absent from the record correspond to fields the script leaves unset. -/
structure MICall where
  program : String
  transaction : String
  record : List (String × String)
deriving DecidableEq, Repr

/-- Characters kept by the quantity sanitiser, mirroring the script regex
that deletes everything except digits, dot and minus. -/
def numCharOk (c : Char) : Bool := c.isDigit || c == '.' || c == '-'

/-- Numeric value of a digit list read most-significant first. -/
def digitsToNat : List Char → Nat → Nat
  | [], acc => acc
  | c :: rest, acc => digitsToNat rest (acc * 10 + (c.toNat - '0'.toNat))

/-- Longest-prefix decimal parse of an already sanitised character list,
following parseFloat: an optional leading minus sign, then an integer part
and an optional fractional part after a single dot; at least one digit must
be present, otherwise the parse fails (NaN in the script).  The value of
a parse with fractional digits d2 is (intPart concat d2) / 10 ^ (length of
d2); the integer-only case avoids rational division so that concrete
inputs evaluate by kernel reduction. -/
def parseDec (l : List Char) : Option Q :=
  let signSplit : Bool × List Char :=
    match l with
    | '-' :: rest => (true, rest)
    | _ => (false, l)
  let d1 := signSplit.2.takeWhile Char.isDigit
  let r1 := signSplit.2.dropWhile Char.isDigit
  let d2 :=
    match r1 with
    | '.' :: rest => rest.takeWhile Char.isDigit
    | _ => []
  if d1.isEmpty && d2.isEmpty then none
  else if d2.isEmpty then
    let n : Int := (digitsToNat d1 0 : Int)
    some (((if signSplit.1 then -n else n) : Int) : Q)
  else
    let base : Int := (digitsToNat d1 0 : Int) * (10 : Int) ^ d2.length + (digitsToNat d2 0 : Int)
    let v : Q := (base : Q) / ((10 : Q) ^ d2.length)
    some (if signSplit.1 then -v else v)

/-- The script helper num(value): null-ish values fall back to the string
"0", non-numeric characters are stripped, the remainder is parsed as a
decimal, and an unparsable remainder yields 0. -/
def num (value : Option String) : Q :=
  let s : String :=
    match value with
    | none => "0"
    | some t => if t = "" then "0" else t
  match parseDec (s.data.filter numCharOk) with
  | none => 0
  | some v => v

/-- Number of iterations of a JavaScript loop for i from 0 while i < q:
the ceiling of q clamped at zero. -/
def iterCount (q : Q) : Nat := (Int.ceil q).toNat


/-! ### Serial and lot input validation (promptSerials / promptLot Save handlers) -/

/-- Whitespace trim as the JavaScript String.trim used by the Save
handlers, stated over the character list so concrete inputs evaluate. -/
def jsTrim (s : String) : String :=
  String.mk (((s.data.dropWhile Char.isWhitespace).reverse.dropWhile Char.isWhitespace).reverse)

/-- Global character removal, as the replace of every hyphen by the empty
string in the expiration-date rewrite. -/
def jsRemoveAll (c : Char) (s : String) : String :=
  String.mk (s.data.filter (fun d => !(d == c)))

/-- A character accepted by the serial/lot format regex: uppercase letter,
digit, or hyphen. -/
def serialCharOk (c : Char) : Bool :=
  (('A' ≤ c) && (c ≤ 'Z')) || c.isDigit || c == '-'

/-- The regex test from the script: the whole string consists of at
least one accepted character. -/
def serialRegexOk (s : String) : Bool :=
  (!s.data.isEmpty) && s.data.all serialCharOk

/-- The reason an individual entry fails format validation, in the order
the script tests: blank first, then over-long, then bad characters. -/
inductive SerialFail where
  | blank
  | tooLong
  | badChars
deriving DecidableEq, Repr

/-- Classification of a single trimmed entry, mirroring the cascade of
checks in the Save handler; a pass is none. -/
def classify (val : String) : Option SerialFail :=
  if val = "" then some SerialFail.blank
  else if 20 < val.length then some SerialFail.tooLong
  else if !serialRegexOk val then some SerialFail.badChars
  else none

/-- The Save handler loop: walk the input fields in order (index carried
for the error labels), trim each value, collect the passing serials and
the failing entries with their reasons. -/
def collectSerials : Nat → List String → List String × List (Nat × SerialFail)
  | _, [] => ([], [])
  | i, v :: rest =>
    let r := collectSerials (i + 1) rest
    match classify (jsTrim v) with
    | none => ((jsTrim v) :: r.1, r.2)
    | some f => (r.1, (i, f) :: r.2)

/-- The duplicate scan from the Save handler: walk the validated serials
with a seen-set, recording each value already seen, at most once. -/
def dupsAux : List String → List String → List String → List String
  | [], _, dups => dups
  | s :: rest, seen, dups =>
    if s ∈ seen then
      if s ∈ dups then dupsAux rest seen dups
      else dupsAux rest seen (dups ++ [s])
    else dupsAux rest (seen ++ [s]) dups

/-- The values reported in the duplicates error message. -/
def duplicatesOf (l : List String) : List String := dupsAux l [] []

/-- Outcome of one press of Save in the serial-entry dialog: the dialog
resolves with the serial batch, or stays open showing a format error or a
duplicates error. -/
inductive SerialSave where
  | ok (serials : List String)
  | invalidInput (invalid : List (Nat × SerialFail))
  | duplicates (dups : List String)
deriving DecidableEq, Repr

/-- The full Save handler: format validation over every field, then the
set-size duplicate test against the requested quantity (the loop bound
qty, a JavaScript number). -/
def saveSerials (qty : Q) (vals : List String) : SerialSave :=
  let r := collectSerials 0 vals
  if r.2 ≠ [] then SerialSave.invalidInput r.2
  else if ((r.1.dedup.length : Nat) : Q) ≠ qty then SerialSave.duplicates (duplicatesOf r.1)
  else SerialSave.ok r.1


/-- Why the lot dialog rejects a Save press. -/
inductive LotFail where
  | lotFormat
  | expRequired
deriving DecidableEq, Repr

/-- Outcome of one press of Save in the lot-entry dialog. -/
inductive LotSave where
  | ok (lot : String) (expi : Option String)
  | invalid (errors : List LotFail)
deriving DecidableEq, Repr

/-- The lot Save handler: the trimmed lot must be non-blank, at most 20
characters and match the same character rule as serials; when the item
requires an expiration date (EXPD flag) a date must be present and is
rewritten from YYYY-MM-DD to YYYYMMDD.  All violations are collected
before reporting. -/
def saveLot (expd : String) (lotInput : String) (expInput : String) : LotSave :=
  let lot := jsTrim lotInput
  let lotBad := lot = "" ∨ 20 < lot.length ∨ serialRegexOk lot = false
  let errs1 : List LotFail := if lotBad then [LotFail.lotFormat] else []
  if expd = "1" then
    if expInput = "" then
      LotSave.invalid (errs1 ++ [LotFail.expRequired])
    else
      let expi := jsRemoveAll (Char.ofNat 45) expInput
      if errs1 ≠ [] then LotSave.invalid errs1 else LotSave.ok lot (some expi)
  else
    if errs1 ≠ [] then LotSave.invalid errs1 else LotSave.ok lot none


/-! ### Already-registered checks (checkSer / checkLot) -/

/-- The record returned by the MMS235MI GetItmLot lookup: item number and
batch/serial number. -/
structure ItmLot where
  ITNO : String
  BANO : String
deriving DecidableEq, Repr

/-- Result of checking one identifier against the remote item-lot file. -/
inductive CheckResult where
  | available
  | alreadyExists (itno bano : String)
  | remoteError (statusCode : Option Int)
deriving DecidableEq, Repr

/-- One serial check from checkSer: a resolved response whose record
matches both the queried item and the queried serial raises the
already-exists error; any other resolved response passes; a rejection with
status code 400 (record not found) passes; any other rejection
propagates. -/
def checkSerOne (itno bano : String) (resp : MIResp ItmLot) : CheckResult :=
  match resp with
  | MIResp.success it =>
    match it with
    | some r =>
      if r.ITNO = itno ∧ r.BANO = bano then CheckResult.alreadyExists itno bano
      else CheckResult.available
    | none => CheckResult.available
  | MIResp.failure sc =>
    if sc = some 400 then CheckResult.available else CheckResult.remoteError sc

/-- The lot check from checkLot, the same decision structure as for
serials. -/
def checkLotOne (itno bano : String) (resp : MIResp ItmLot) : CheckResult :=
  match resp with
  | MIResp.success it =>
    match it with
    | some r =>
      if r.ITNO = itno ∧ r.BANO = bano then CheckResult.alreadyExists itno bano
      else CheckResult.available
    | none => CheckResult.available
  | MIResp.failure sc =>
    if sc = some 400 then CheckResult.available else CheckResult.remoteError sc

/-! ### Equipment records, tracking and rollback (addEquip / rollbackEquipment) -/

/-- One tracked provisional equipment record: item number and serial, the
key used by the MMS240MI Del rollback call. -/
structure EquipRec where
  ITNO : String
  SERN : String
deriving DecidableEq, Repr

/-- How one MMS240MI Add call ends: resolved with a record (the only case
the script tracks), resolved without a record (treated as failure), or
rejected. -/
inductive CreateOutcome where
  | created
  | noRecord
  | rejected
deriving DecidableEq, Repr

/-- Result of the rollback routine: the deletion calls issued with each
individual outcome (true when the Del promise resolved), and the tracking
list as left behind. -/
structure RollbackResult where
  deletions : List (EquipRec × Bool)
  tracked : List EquipRec
deriving DecidableEq, Repr

/-- rollbackEquipment: with nothing tracked, return at once; otherwise
attempt one deletion per tracked record, each protected by its own
try-catch so that an individual failure never stops the others, and clear
the tracking list regardless of the outcomes. -/
def rollbackEquipment (tracked : List EquipRec) (delOk : EquipRec → Bool) : RollbackResult :=
  if tracked.isEmpty then { deletions := [], tracked := tracked }
  else { deletions := tracked.map (fun e => (e, delOk e)), tracked := [] }

/-- The subset of serials whose Add call resolved with a record: exactly
the entries the script pushes onto createdEquipment. -/
def createdSubset (itno : String) (serials : List String) (co : String → CreateOutcome) :
    List EquipRec :=
  (serials.filter (fun s => co s = CreateOutcome.created)).map (fun s => EquipRec.mk itno s)

/-- Result of the addEquip phase. -/
structure AddEquipResult where
  trackedAtFailure : List EquipRec
  rollback : Option RollbackResult
  tracked : List EquipRec
  ok : Bool
deriving DecidableEq, Repr

/-- addEquip: issue one Add call per serial (all of them, concurrently in
the script), track each serial whose call returned a record, and if any
call failed, roll the tracked records back before propagating the
error. -/
def addEquip (itno : String) (serials : List String) (co : String → CreateOutcome)
    (delOk : EquipRec → Bool) : AddEquipResult :=
  let tracked := createdSubset itno serials co
  if serials.all (fun s => co s = CreateOutcome.created) then
    { trackedAtFailure := tracked, rollback := none, tracked := tracked, ok := true }
  else
    let rb := rollbackEquipment tracked delOk
    { trackedAtFailure := tracked, rollback := some rb, tracked := rb.tracked, ok := false }

/-! ### Receipt engine (process) -/

/-- One receipt line as built in run: optional batch/serial identifier,
received quantity, optional expiration date. -/
structure RcptLine where
  BANO : Option String
  RVQA : String
  EXPI : Option String
deriving DecidableEq, Repr

/-- The instance fields of the script consumed by the receipt engine and
the equipment calls. -/
structure Ctx where
  WHLO : String
  PUNO : String
  PNLI : String
  PNLS : String
  ITNO : String
  WHSL : String
  OEND : String
  INDI : String
  TPCD : String
  CUNO : String
  PUPR : String
  CUCD : String
  FACI : String
  ITDS : String
  today : String
deriving DecidableEq, Repr

/-- Non-material test from the script: control method 0 and item
category 13; such items carry no warehouse location on their lines. -/
def isNonMaterial (c : Ctx) : Bool := c.INDI = "0" && c.TPCD = "13"

/-- The single pack number used for every line: PUNO underscore PNLI. -/
def packNumber (c : Ctx) : String := c.PUNO ++ "_" ++ c.PNLI

/-- The MHS850MI AddWhsHead request. -/
def mkWhsHead (c : Ctx) : MICall :=
  { program := "MHS850MI", transaction := "AddWhsHead",
    record := [("WHLO", c.WHLO), ("QLFR", "20"), ("E0PA", "WS"), ("E0PB", "WS"),
               ("E007", "20"), ("E065", "PPS300")] }

/-- The MHS850MI AddWhsPack request for the single pack. -/
def mkWhsPack (c : Ctx) (msgn : String) : MICall :=
  { program := "MHS850MI", transaction := "AddWhsPack",
    record := [("WHLO", c.WHLO), ("MSGN", msgn), ("PACN", packNumber c), ("QLFR", "20")] }

/-- The MHS850MI AddWhsLine request for one receipt line: location only
for material items, batch/serial and expiration only when the line carries
a non-empty value (JavaScript truthiness). -/
def mkWhsLine (c : Ctx) (msgn : String) (rec : RcptLine) : MICall :=
  { program := "MHS850MI", transaction := "AddWhsLine",
    record :=
      [("WHLO", c.WHLO), ("MSGN", msgn), ("PACN", packNumber c), ("QLFR", "20"),
       ("ITNO", c.ITNO), ("RVQA", rec.RVQA), ("RIDN", c.PUNO), ("RIDL", c.PNLI),
       ("RIDX", c.PNLS), ("OEND", c.OEND)]
      ++ (if isNonMaterial c then [] else [("WHSL", c.WHSL)])
      ++ (match rec.BANO with
          | some b => if b = "" then [] else [("BANO", b)]
          | none => [])
      ++ (match rec.EXPI with
          | some e => if e = "" then [] else [("EXPI", e)]
          | none => []) }

/-- The MMS240MI Del rollback request for one tracked equipment record. -/
def mkDel (e : EquipRec) : MICall :=
  { program := "MMS240MI", transaction := "Del",
    record := [("ITNO", e.ITNO), ("SERN", e.SERN)] }

/-- The MHS850MI PrcWhsTran request. -/
def mkPrc (msgn : String) : MICall :=
  { program := "MHS850MI", transaction := "PrcWhsTran",
    record := [("MSGN", msgn), ("PRFL", "*EXE")] }

/-- The MHS850MI GetWhsHead status poll. -/
def mkGetWhsHead (msgn : String) : MICall :=
  { program := "MHS850MI", transaction := "GetWhsHead", record := [("MSGN", msgn)] }

/-- The operator-facing diagnostic category attached to a failed terminal
status. -/
inductive DiagCategory where
  | header
  | packageLine
  | other
deriving DecidableEq, Repr

/-- Category derivation from the status code: 15 and 20 are header-level,
25, 30, 35 and 40 are package- or line-level, everything else is
other. -/
def diagCategory (stat : String) : DiagCategory :=
  if ["15", "20"].contains stat then DiagCategory.header
  else if ["25", "30", "35", "40"].contains stat then DiagCategory.packageLine
  else DiagCategory.other

/-- How the receipt engine fails. -/
inductive ProcErr where
  | headFailed
  | packFailed
  | lineFailed
  | prcFailed
  | statusFetchFailed
  | processing (stat : String) (cat : DiagCategory)
deriving DecidableEq, Repr

/-- Remote responses consumed by one invocation of process. -/
structure ProcEnv where
  whsHeadResp : MIResp String
  whsPackOk : Bool
  whsLineOk : Nat → Bool
  prcResp : MIResp Unit
  statResp : MIResp String

/-- Result of one invocation of process: the requests issued in order, the
rollback deletions performed inside (status-failure path only), the
tracking list afterwards, and the error if any. -/
structure ProcResult where
  calls : List MICall
  deletions : List (EquipRec × Bool)
  tracked : List EquipRec
  err : Option ProcErr
deriving DecidableEq, Repr

/-- process: create the transaction header, create the single pack, attach
every line to it, execute the transaction, poll the terminal status once,
and treat exactly status 90 as success; any other status rolls back the
tracked equipment (when any is tracked) and fails with the derived
diagnostic category.  Failures before the status check leave the tracking
list untouched (the caller rolls back). -/
def process (c : Ctx) (pe : ProcEnv) (lines : List RcptLine) (tracked : List EquipRec)
    (delOk : EquipRec → Bool) : ProcResult :=
  let c0 := [mkWhsHead c]
  match pe.whsHeadResp with
  | MIResp.failure _ =>
    { calls := c0, deletions := [], tracked := tracked, err := some ProcErr.headFailed }
  | MIResp.success none =>
    { calls := c0, deletions := [], tracked := tracked, err := some ProcErr.headFailed }
  | MIResp.success (some msgn) =>
    if msgn = "" then
      { calls := c0, deletions := [], tracked := tracked, err := some ProcErr.headFailed }
    else
      let c1 := c0 ++ [mkWhsPack c msgn]
      if !pe.whsPackOk then
        { calls := c1, deletions := [], tracked := tracked, err := some ProcErr.packFailed }
      else
        let c2 := c1 ++ lines.map (mkWhsLine c msgn)
        if !((List.range lines.length).all pe.whsLineOk) then
          { calls := c2, deletions := [], tracked := tracked, err := some ProcErr.lineFailed }
        else
          let c3 := c2 ++ [mkPrc msgn]
          match pe.prcResp with
          | MIResp.failure _ =>
            { calls := c3, deletions := [], tracked := tracked, err := some ProcErr.prcFailed }
          | MIResp.success none =>
            { calls := c3, deletions := [], tracked := tracked, err := some ProcErr.prcFailed }
          | MIResp.success (some _) =>
            let c4 := c3 ++ [mkGetWhsHead msgn]
            match pe.statResp with
            | MIResp.failure _ =>
              { calls := c4, deletions := [], tracked := tracked,
                err := some ProcErr.statusFetchFailed }
            | MIResp.success none =>
              { calls := c4, deletions := [], tracked := tracked,
                err := some ProcErr.statusFetchFailed }
            | MIResp.success (some stat) =>
              if stat = "90" then
                { calls := c4, deletions := [], tracked := tracked, err := none }
              else
                if tracked.isEmpty then
                  { calls := c4, deletions := [], tracked := tracked,
                    err := some (ProcErr.processing stat (diagCategory stat)) }
                else
                  let rb := rollbackEquipment tracked delOk
                  { calls := c4 ++ (rb.deletions.map (fun p => mkDel p.1)),
                    deletions := rb.deletions, tracked := rb.tracked,
                    err := some (ProcErr.processing stat (diagCategory stat)) }

/-! ### The main workflow (run) -/

/-- Fields read from the PPS200MI GetLine response. -/
structure POLine where
  PUPR : String
  RORC : String
  RORN : String
  RORL : String
  ITDS : String
  GETY : String
deriving DecidableEq, Repr

/-- Fields read from the PPS200MI GetHead response. -/
structure POHead where
  PUDT : String
  CUCD : String
  FACI : String
deriving DecidableEq, Repr

/-- Fields read from the MMS200MI GetItmBasic response. -/
structure ItemData where
  EXPD : String
  INDI : String
  TPCD : String
deriving DecidableEq, Repr

/-- The PPS200MI GetLine request. -/
def mkGetLine (puno pnli pnls : String) : MICall :=
  { program := "PPS200MI", transaction := "GetLine",
    record := [("PUNO", puno), ("PNLI", pnli), ("PNLS", pnls)] }

/-- The PPS200MI GetHead request. -/
def mkGetHead (puno : String) : MICall :=
  { program := "PPS200MI", transaction := "GetHead", record := [("PUNO", puno)] }

/-- The MMS009MI Get request probing WMS warehouse-group membership. -/
def mkWmsGet (whlo : String) : MICall :=
  { program := "MMS009MI", transaction := "Get",
    record := [("WHGR", "WMSWHSE"), ("WHLO", whlo)] }

/-- The MMS200MI GetItmBasic request. -/
def mkGetItmBasic (itno : String) : MICall :=
  { program := "MMS200MI", transaction := "GetItmBasic",
    record := [("ITNO", itno), ("ALFM", "1")] }

/-- The PPS001MI GetBasicData2 request for the remaining quantity. -/
def mkGetBasicData2 (puno pnli pnls : String) : MICall :=
  { program := "PPS001MI", transaction := "GetBasicData2",
    record := [("PUNO", puno), ("PNLI", pnli), ("PNLS", pnls)] }

/-- The OIS100MI GetOrderHead request for the drop-ship customer. -/
def mkGetOrderHead (orno : String) : MICall :=
  { program := "OIS100MI", transaction := "GetOrderHead", record := [("ORNO", orno)] }

/-- The MMS235MI GetItmLot request for one identifier. -/
def mkGetItmLot (itno bano : String) : MICall :=
  { program := "MMS235MI", transaction := "GetItmLot",
    record := [("ITNO", itno), ("BANO", bano)] }

/-- The MMS240MI Add request creating one equipment record. -/
def mkEquipAdd (c : Ctx) (s : String) : MICall :=
  { program := "MMS240MI", transaction := "Add",
    record := [("ITNO", c.ITNO), ("SERN", s), ("STAT", "20"), ("CUNO", c.CUNO),
               ("PUPR", c.PUPR), ("CUCD", c.CUCD), ("PPDT", c.today), ("FACI", c.FACI),
               ("CUOW", c.CUNO), ("OWTP", "0"), ("PUNO", c.PUNO), ("PNLI", c.PNLI),
               ("PNLS", c.PNLS), ("ALII", c.ITDS)] }

/-- How a run fails; success is the absence of an error. -/
inductive RunErr where
  | missingFields (l : List String)
  | lookupFailed (which : String)
  | whslRequired
  | cancelled
  | limitExceeded (qty : Q)
  | serialInputRejected (r : SerialSave)
  | lotInputRejected (errs : List LotFail)
  | alreadyRegistered (bano : String)
  | remoteError (sc : Option Int)
  | equipCreateFailed
  | procFailed (e : ProcErr)
deriving DecidableEq, Repr

/-- The complete observable outcome of one run: the requests issued in
order, the tracking list at the end, the deletion attempts with their
outcomes, the records whose creation call returned a record, how many
serial-entry fields were prompted (when the dialog opened), which warnings
were shown, and the final outcome. -/
structure RunResult where
  calls : List MICall
  tracked : List EquipRec
  deletions : List (EquipRec × Bool)
  created : List EquipRec
  promptCount : Option Nat
  wmsWarned : Bool
  overWarn : Option Q
  outcome : Option RunErr
deriving DecidableEq, Repr

/-- The whole environment of one run: screen field values, remote
responses and operator decisions. -/
structure Env where
  PUNO : String
  SUNO : String
  WHLO : String
  PNLI : String
  PNLS : String
  RVQA : String
  WHSL : String
  ITNO : String
  OEND : String
  today : String
  lineResp : MIResp POLine
  headResp : MIResp POHead
  wmsResp : MIResp Unit
  itemResp : MIResp ItemData
  remResp : MIResp String
  custResp : MIResp String
  proceedWms : Bool
  proceedOver : Bool
  serialInput : Nat → String
  lotInput : String
  expInput : String
  confirmOk : Bool
  itmLotResp : String → MIResp ItmLot
  equipAdd : String → CreateOutcome
  equipDel : EquipRec → Bool
  procEnv : ProcEnv

/-- A run result carrying no state changes beyond the calls made: used by
every exit before equipment creation. -/
def bareRes (calls : List MICall) (wmsW : Bool) (overW : Option Q) (pc : Option Nat)
    (out : Option RunErr) : RunResult :=
  { calls := calls, tracked := [], deletions := [], created := [],
    promptCount := pc, wmsWarned := wmsW, overWarn := overW, outcome := out }

/-- Leftmost failing already-registered check among the serials, the
rejection Promise.all reports; all the lookup calls are issued
regardless. -/
def serialCheckErr (itno : String) (resp : String → MIResp ItmLot) : List String → Option RunErr
  | [] => none
  | s :: rest =>
    match checkSerOne itno s (resp s) with
    | CheckResult.available => serialCheckErr itno resp rest
    | CheckResult.alreadyExists _ b => some (RunErr.alreadyRegistered b)
    | CheckResult.remoteError sc => some (RunErr.remoteError sc)

/-- The serial branch: cap check against the fixed maximum of 25, prompt
for one field per unit, validate the batch, check each serial remotely,
create the equipment records, submit the receipt lines (quantity 1 each,
no expiration), clear the tracking on success and roll back on any
failure after creation. -/
def serialFlow (env : Env) (c : Ctx) (calls : List MICall) (wmsW : Bool) (overW : Option Q) :
    RunResult :=
  let qty := num (some env.RVQA)
  if 25 < qty then bareRes calls wmsW overW none (some (RunErr.limitExceeded qty))
  else
    let n := iterCount qty
    let vals := (List.range n).map env.serialInput
    match saveSerials qty vals with
    | SerialSave.invalidInput inv =>
      bareRes calls wmsW overW (some n)
        (some (RunErr.serialInputRejected (SerialSave.invalidInput inv)))
    | SerialSave.duplicates d =>
      bareRes calls wmsW overW (some n)
        (some (RunErr.serialInputRejected (SerialSave.duplicates d)))
    | SerialSave.ok serials =>
      let cChk := calls ++ serials.map (fun s => mkGetItmLot c.ITNO s)
      match serialCheckErr c.ITNO env.itmLotResp serials with
      | some e => bareRes cChk wmsW overW (some n) (some e)
      | none =>
        let cAdd := cChk ++ serials.map (mkEquipAdd c)
        let ae := addEquip c.ITNO serials env.equipAdd env.equipDel
        if ae.ok then
          let pr := process c env.procEnv
            (serials.map (fun s => RcptLine.mk (some s) "1" none)) ae.tracked env.equipDel
          match pr.err with
          | none =>
            { calls := cAdd ++ pr.calls, tracked := [], deletions := pr.deletions,
              created := ae.trackedAtFailure, promptCount := some n, wmsWarned := wmsW,
              overWarn := overW, outcome := none }
          | some e =>
            let rb2 := rollbackEquipment pr.tracked env.equipDel
            { calls := cAdd ++ pr.calls ++ rb2.deletions.map (fun p => mkDel p.1),
              tracked := rb2.tracked, deletions := pr.deletions ++ rb2.deletions,
              created := ae.trackedAtFailure, promptCount := some n, wmsWarned := wmsW,
              overWarn := overW, outcome := some (RunErr.procFailed e) }
        else
          let rb := rollbackEquipment ae.trackedAtFailure env.equipDel
          { calls := cAdd ++ rb.deletions.map (fun p => mkDel p.1),
            tracked := ae.tracked, deletions := rb.deletions,
            created := ae.trackedAtFailure, promptCount := some n, wmsWarned := wmsW,
            overWarn := overW, outcome := some RunErr.equipCreateFailed }

/-- The lot branch: one lot prompt (with expiration when required), the
already-registered check, then one receipt line carrying the full
requested quantity. -/
def lotFlow (env : Env) (c : Ctx) (expd : String) (calls : List MICall) (wmsW : Bool)
    (overW : Option Q) : RunResult :=
  match saveLot expd env.lotInput env.expInput with
  | LotSave.invalid errs =>
    bareRes calls wmsW overW none (some (RunErr.lotInputRejected errs))
  | LotSave.ok lot expi =>
    let cChk := calls ++ [mkGetItmLot c.ITNO lot]
    match checkLotOne c.ITNO lot (env.itmLotResp lot) with
    | CheckResult.alreadyExists _ b =>
      bareRes cChk wmsW overW none (some (RunErr.alreadyRegistered b))
    | CheckResult.remoteError sc =>
      bareRes cChk wmsW overW none (some (RunErr.remoteError sc))
    | CheckResult.available =>
      let pr := process c env.procEnv [RcptLine.mk (some lot) env.RVQA expi] [] env.equipDel
      { calls := cChk ++ pr.calls, tracked := pr.tracked, deletions := pr.deletions,
        created := [], promptCount := none, wmsWarned := wmsW, overWarn := overW,
        outcome := (pr.err).map RunErr.procFailed }

/-- The non-lotted branch: a confirm dialog, then one receipt line with no
identifier. -/
def noneFlow (env : Env) (c : Ctx) (calls : List MICall) (wmsW : Bool) (overW : Option Q) :
    RunResult :=
  if !env.confirmOk then bareRes calls wmsW overW none (some RunErr.cancelled)
  else
    let pr := process c env.procEnv [RcptLine.mk none env.RVQA none] [] env.equipDel
    { calls := calls ++ pr.calls, tracked := pr.tracked, deletions := pr.deletions,
      created := [], promptCount := none, wmsWarned := wmsW, overWarn := overW,
      outcome := (pr.err).map RunErr.procFailed }

/-- The missing-fields list of validateFields, in source order; a field is
missing when its screen value is empty (JavaScript falsy). -/
def missingFields (env : Env) : List String :=
  (if env.PUNO = "" then ["PUNO"] else []) ++ (if env.PNLI = "" then ["PNLI"] else [])
  ++ (if env.PNLS = "" then ["PNLS"] else []) ++ (if env.RVQA = "" then ["RVQA"] else [])
  ++ (if env.ITNO = "" then ["ITNO"] else []) ++ (if env.WHLO = "" then ["WHLO"] else [])
  ++ (if env.SUNO = "" then ["SUNO"] else []) ++ (if env.OEND = "" then ["OEND"] else [])

/-- The over-receipt warning content: shown exactly when the parsed
requested quantity strictly exceeds the parsed remaining quantity, and the
displayed number is their difference. -/
def overDiff (rvqa rstq : String) : Option Q :=
  if num (some rvqa) > num (some rstq) then some (num (some rvqa) - num (some rstq)) else none

/-- The Ctx record the branch and engine code reads from the script
instance after the lookups completed. -/
def ctxOf (env : Env) (pl : POLine) (hd : POHead) (itm : ItemData) (cuno : String) : Ctx :=
  { WHLO := env.WHLO, PUNO := env.PUNO, PNLI := env.PNLI, PNLS := env.PNLS,
    ITNO := env.ITNO, WHSL := env.WHSL, OEND := env.OEND, INDI := itm.INDI,
    TPCD := itm.TPCD, CUNO := cuno, PUPR := pl.PUPR, CUCD := hd.CUCD,
    FACI := hd.FACI, ITDS := pl.ITDS, today := env.today }

/-- The warnings step followed by the control-method branch, entered with
all lookups complete.  The WMS warning is shown first; cancelling there
means the over-receipt warning is never shown. -/
def afterLookups (env : Env) (pl : POLine) (hd : POHead) (isWms : Bool) (itm : ItemData)
    (rstq : String) (cuno : String) (calls : List MICall) : RunResult :=
  let c := ctxOf env pl hd itm cuno
  let wmsW := isWms && !(pl.GETY == "24")
  if wmsW && !env.proceedWms then bareRes calls wmsW none none (some RunErr.cancelled)
  else
    let overW := overDiff env.RVQA rstq
    if overW.isSome && !env.proceedOver then
      bareRes calls wmsW overW none (some RunErr.cancelled)
    else
      if itm.INDI = "2" then serialFlow env c calls wmsW overW
      else if itm.INDI = "3" then lotFlow env c itm.EXPD calls wmsW overW
      else noneFlow env c calls wmsW overW

/-- The full run: validate the screen fields, fetch the PO line, run the
lookups (header, WMS membership, item data, remaining quantity, and the
drop-ship customer when the line references a customer order), evaluate
the warnings, then branch by control method. -/
def run (env : Env) : RunResult :=
  if missingFields env ≠ [] then
    bareRes [] false none none (some (RunErr.missingFields (missingFields env)))
  else
    let c1 := [mkGetLine env.PUNO env.PNLI env.PNLS]
    match env.lineResp with
    | MIResp.failure _ => bareRes c1 false none none (some (RunErr.lookupFailed "GetLine"))
    | MIResp.success none => bareRes c1 false none none (some (RunErr.lookupFailed "GetLine"))
    | MIResp.success (some pl) =>
      let c2 := c1 ++ [mkGetHead env.PUNO]
      match env.headResp with
      | MIResp.failure _ => bareRes c2 false none none (some (RunErr.lookupFailed "GetHead"))
      | MIResp.success none => bareRes c2 false none none (some (RunErr.lookupFailed "GetHead"))
      | MIResp.success (some hd) =>
        let c3 := c2 ++ [mkWmsGet env.WHLO]
        match env.wmsResp with
        | MIResp.failure _ => bareRes c3 false none none (some (RunErr.lookupFailed "WmsGet"))
        | MIResp.success w =>
          let isWms := w.isSome
          let c4 := c3 ++ [mkGetItmBasic env.ITNO]
          match env.itemResp with
          | MIResp.failure _ =>
            bareRes c4 false none none (some (RunErr.lookupFailed "GetItmBasic"))
          | MIResp.success none =>
            bareRes c4 false none none (some (RunErr.lookupFailed "GetItmBasic"))
          | MIResp.success (some itm) =>
            if !(itm.INDI = "0" && itm.TPCD = "13") && env.WHSL = "" then
              bareRes c4 false none none (some RunErr.whslRequired)
            else
              let c5 := c4 ++ [mkGetBasicData2 env.PUNO env.PNLI env.PNLS]
              match env.remResp with
              | MIResp.failure _ =>
                bareRes c5 false none none (some (RunErr.lookupFailed "GetBasicData2"))
              | MIResp.success none =>
                bareRes c5 false none none (some (RunErr.lookupFailed "GetBasicData2"))
              | MIResp.success (some rstq) =>
                if pl.RORC = "3" && !(pl.RORN == "") then
                  let c6 := c5 ++ [mkGetOrderHead pl.RORN]
                  match env.custResp with
                  | MIResp.failure _ =>
                    bareRes c6 false none none (some (RunErr.lookupFailed "GetOrderHead"))
                  | MIResp.success none =>
                    bareRes c6 false none none (some (RunErr.lookupFailed "GetOrderHead"))
                  | MIResp.success (some cu) =>
                    afterLookups env pl hd isWms itm rstq cu c6
                else
                  afterLookups env pl hd isWms itm rstq "" c5

/-- Classification of an MI request as a remote write: equipment creation
and deletion, and every MHS850MI transaction except the status poll. -/
def isWriteCall (mc : MICall) : Bool :=
  (mc.program = "MMS240MI") || ((mc.program = "MHS850MI") && !(mc.transaction == "GetWhsHead"))

/-- The five lookup read requests issued before the warnings step on a
non-drop-ship line. -/
def lookupCalls (env : Env) : List MICall :=
  [mkGetLine env.PUNO env.PNLI env.PNLS, mkGetHead env.PUNO, mkWmsGet env.WHLO,
   mkGetItmBasic env.ITNO, mkGetBasicData2 env.PUNO env.PNLI env.PNLS]

/-! ### Helper lemmas: rollback, created subset, process invariants -/

theorem rollback_deletions_fst (t : List EquipRec) (d : EquipRec → Bool) :
    ((rollbackEquipment t d).deletions.map Prod.fst) = t := by
  unfold rollbackEquipment
  split
  · next h => simp_all [List.isEmpty_iff]
  · next h =>
      clear h
      induction t with
      | nil => rfl
      | cons a t ih => simpa using ih

theorem rollback_tracked_nil (t : List EquipRec) (d : EquipRec → Bool) :
    (rollbackEquipment t d).tracked = [] := by
  unfold rollbackEquipment
  split
  · next h => simp_all [List.isEmpty_iff]
  · simp

theorem mem_createdSubset (itno : String) (serials : List String) (co : String → CreateOutcome)
    (e : EquipRec) :
    e ∈ createdSubset itno serials co ↔
      e.ITNO = itno ∧ e.SERN ∈ serials ∧ co e.SERN = CreateOutcome.created := by
  simp only [createdSubset, List.mem_map, List.mem_filter]
  constructor
  · rintro ⟨s, ⟨hs, hco⟩, rfl⟩
    exact ⟨rfl, hs, by simpa using hco⟩
  · rintro ⟨h1, h2, h3⟩
    exact ⟨e.SERN, ⟨h2, by simpa using h3⟩, by cases e; simp_all⟩

theorem createdSubset_all (itno : String) (serials : List String) (co : String → CreateOutcome)
    (h : ∀ s ∈ serials, co s = CreateOutcome.created) :
    createdSubset itno serials co = serials.map (fun s => EquipRec.mk itno s) := by
  unfold createdSubset
  rw [List.filter_eq_self.mpr]
  intro s hs
  simpa using h s hs

theorem addEquip_all_created (itno : String) (serials : List String) (co : String → CreateOutcome)
    (d : EquipRec → Bool) (h : ∀ s ∈ serials, co s = CreateOutcome.created) :
    addEquip itno serials co d =
      { trackedAtFailure := serials.map (fun s => EquipRec.mk itno s), rollback := none,
        tracked := serials.map (fun s => EquipRec.mk itno s), ok := true } := by
  unfold addEquip
  rw [createdSubset_all itno serials co h]
  rw [if_pos]
  rw [List.all_eq_true]
  intro s hs
  simpa using h s hs

theorem process_deletions_append_tracked (c : Ctx) (pe : ProcEnv) (lines : List RcptLine)
    (tracked : List EquipRec) (d : EquipRec → Bool) :
    ((process c pe lines tracked d).deletions.map Prod.fst)
      ++ (process c pe lines tracked d).tracked = tracked := by
  unfold process
  repeat' split
  all_goals simp_all [rollback_deletions_fst, rollback_tracked_nil, List.isEmpty_iff]

theorem process_ok_no_deletions (c : Ctx) (pe : ProcEnv) (lines : List RcptLine)
    (tracked : List EquipRec) (d : EquipRec → Bool)
    (h : (process c pe lines tracked d).err = none) :
    (process c pe lines tracked d).deletions = [] ∧
      (process c pe lines tracked d).tracked = tracked := by
  revert h
  unfold process
  repeat' split
  all_goals simp_all [rollback_tracked_nil, List.isEmpty_iff]

/-! ### Helper lemmas: input validation -/

theorem collect_length (i : Nat) (vals : List String) :
    (collectSerials i vals).1.length + (collectSerials i vals).2.length = vals.length := by
  induction vals generalizing i with
  | nil => rfl
  | cons v rest ih =>
    simp only [collectSerials]
    cases h : classify (jsTrim v) <;> simp [List.length_cons, ← ih (i + 1)] <;> omega

theorem collect_all_valid (i : Nat) (vals : List String)
    (h : ∀ v ∈ vals, classify (jsTrim v) = none) :
    collectSerials i vals = (vals.map jsTrim, []) := by
  induction vals generalizing i with
  | nil => rfl
  | cons v rest ih =>
    have hv : classify (jsTrim v) = none := h v (List.mem_cons_self v rest)
    have hr := ih (i + 1) (fun w hw => h w (List.mem_cons_of_mem v hw))
    simp [collectSerials, hv, hr]

theorem collect_snd_eq (i : Nat) (vals : List String) :
    (collectSerials i vals).2 =
      (List.enumFrom i vals).filterMap
        (fun p => (classify (jsTrim p.2)).map (fun f => (p.1, f))) := by
  induction vals generalizing i with
  | nil => rfl
  | cons v rest ih =>
    simp only [collectSerials, List.enumFrom_cons, List.filterMap_cons]
    cases h : classify (jsTrim v) <;> simp [h, ih (i + 1)]

theorem collect_fst_eq (i : Nat) (vals : List String) :
    (collectSerials i vals).1 =
      (vals.filter (fun v => (classify (jsTrim v)).isNone)).map jsTrim := by
  induction vals generalizing i with
  | nil => rfl
  | cons v rest ih =>
    simp only [collectSerials, List.filter_cons]
    cases h : classify (jsTrim v) <;> simp [h, ih (i + 1)]

theorem collect_snd_nil_iff (i : Nat) (vals : List String) :
    (collectSerials i vals).2 = [] ↔ ∀ v ∈ vals, classify (jsTrim v) = none := by
  induction vals generalizing i with
  | nil => simp [collectSerials]
  | cons v rest ih =>
    simp only [collectSerials]
    cases h : classify (jsTrim v) <;> simp [h, ih (i + 1)]

theorem mem_dupsAux (l seen dups : List String) (x : String) :
    x ∈ dupsAux l seen dups ↔
      x ∈ dups ∨ (x ∈ seen ∧ x ∈ l) ∨ 2 ≤ l.count x := by
  induction l generalizing seen dups with
  | nil => simp [dupsAux]
  | cons s rest ih =>
    simp only [dupsAux]
    by_cases hs : s ∈ seen
    · by_cases hd : s ∈ dups
      · rw [if_pos hs, if_pos hd, ih]
        by_cases hx : x = s
        · subst hx
          simp [hs, hd]
        · have hc : (s :: rest).count x = rest.count x := by
            simp [List.count_cons, hx, Ne.symm hx]
          simp [hc, List.mem_cons, hx]
      · rw [if_pos hs, if_neg hd, ih]
        by_cases hx : x = s
        · subst hx
          simp [hs, hd]
        · have hc : (s :: rest).count x = rest.count x := by
            simp [List.count_cons, hx, Ne.symm hx]
          simp [hc, List.mem_cons, List.mem_append, hx]
    · rw [if_neg hs, ih]
      by_cases hx : x = s
      · subst hx
        have hc : (x :: rest).count x = rest.count x + 1 := by
          simp [List.count_cons]
        have hmem : 0 < rest.count x ↔ x ∈ rest := List.count_pos_iff
        constructor
        · rintro (h | ⟨h1, h2⟩ | h)
          · exact Or.inl h
          · refine Or.inr (Or.inr ?_)
            rw [hc]
            have := hmem.mpr h2
            omega
          · refine Or.inr (Or.inr ?_)
            rw [hc]
            omega
        · rintro (h | ⟨h1, _⟩ | h)
          · exact Or.inl h
          · exact absurd h1 hs
          · rw [hc] at h
            have hr : x ∈ rest := hmem.mp (by omega)
            exact Or.inr (Or.inl ⟨by simp, hr⟩)
      · have hc : (s :: rest).count x = rest.count x := by
          simp [List.count_cons, hx, Ne.symm hx]
        simp [hc, List.mem_cons, List.mem_append, hx]

theorem nodup_dupsAux (l seen dups : List String) (h : dups.Nodup) :
    (dupsAux l seen dups).Nodup := by
  induction l generalizing seen dups with
  | nil => simpa [dupsAux] using h
  | cons s rest ih =>
    simp only [dupsAux]
    by_cases hs : s ∈ seen
    · by_cases hd : s ∈ dups
      · rw [if_pos hs, if_pos hd]
        exact ih seen dups h
      · rw [if_pos hs, if_neg hd]
        refine ih seen (dups ++ [s]) ?_
        rw [List.nodup_append]
        refine ⟨h, List.nodup_singleton s, ?_⟩
        intro a ha hb
        rw [List.mem_singleton] at hb
        subst hb
        exact hd ha
    · rw [if_neg hs]
      exact ih (seen ++ [s]) dups h

theorem mem_duplicatesOf (l : List String) (x : String) :
    x ∈ duplicatesOf l ↔ 2 ≤ l.count x := by
  unfold duplicatesOf
  rw [mem_dupsAux]
  simp

theorem nodup_duplicatesOf (l : List String) : (duplicatesOf l).Nodup :=
  nodup_dupsAux l [] [] List.nodup_nil

theorem dedup_length_eq_iff (l : List String) :
    l.dedup.length = l.length ↔ l.Nodup := by
  constructor
  · intro h
    have he : l.dedup = l := (List.dedup_sublist l).eq_of_length h
    rw [← he]
    exact List.nodup_dedup l
  · intro h
    rw [h.dedup]

theorem saveSerials_ok_iff (vals : List String) :
    saveSerials (vals.length : Q) vals = SerialSave.ok (vals.map jsTrim) ↔
      (∀ v ∈ vals, classify (jsTrim v) = none) ∧ (vals.map jsTrim).Nodup := by
  unfold saveSerials
  constructor
  · intro h
    by_cases hinv : (collectSerials 0 vals).2 = []
    · have hall := (collect_snd_nil_iff 0 vals).mp hinv
      refine ⟨hall, ?_⟩
      rw [if_neg (by simp [hinv])] at h
      by_cases hdup :
          (((collectSerials 0 vals).1.dedup.length : Nat) : Q) ≠ (vals.length : Q)
      · rw [if_pos hdup] at h
        exact absurd h (by simp)
      · push_neg at hdup
        have hfst : (collectSerials 0 vals).1 = vals.map jsTrim :=
          by rw [collect_all_valid 0 vals hall]
        rw [hfst] at hdup
        have hlen : ((vals.map jsTrim).dedup.length : Nat) = vals.length :=
          Nat.cast_injective hdup
        rw [← List.length_map vals jsTrim] at hlen
        exact (dedup_length_eq_iff (vals.map jsTrim)).mp hlen
    · rw [if_pos (by simpa using hinv)] at h
      exact absurd h (by simp)
  · rintro ⟨hall, hnd⟩
    have hc : collectSerials 0 vals = (vals.map jsTrim, []) := collect_all_valid 0 vals hall
    rw [hc]
    simp [hnd.dedup]

theorem saveSerials_ok_inv (q : Q) (vals serials : List String)
    (h : saveSerials q vals = SerialSave.ok serials) :
    serials = vals.map jsTrim ∧ (∀ v ∈ vals, classify (jsTrim v) = none) ∧
      (((vals.map jsTrim).dedup.length : Nat) : Q) = q := by
  revert h
  unfold saveSerials
  by_cases hinv : (collectSerials 0 vals).2 = []
  · have hall := (collect_snd_nil_iff 0 vals).mp hinv
    have hfst : (collectSerials 0 vals).1 = vals.map jsTrim := by
      rw [collect_all_valid 0 vals hall]
    rw [if_neg (by simp [hinv])]
    by_cases hdup : (((collectSerials 0 vals).1.dedup.length : Nat) : Q) ≠ q
    · rw [if_pos hdup]
      intro h
      exact absurd h (by simp)
    · push_neg at hdup
      rw [if_neg (by simpa using hdup)]
      intro h
      have hser : serials = (collectSerials 0 vals).1 := by
        cases h
        rfl
      rw [hser, hfst]
      rw [hfst] at hdup
      exact ⟨rfl, hall, hdup⟩
  · rw [if_pos (by simpa using hinv)]
    intro h
    exact absurd h (by simp)

theorem saveSerials_ok_of (q : Q) (vals : List String)
    (hall : ∀ v ∈ vals, classify (jsTrim v) = none)
    (hq : (((vals.map jsTrim).dedup.length : Nat) : Q) = q) :
    saveSerials q vals = SerialSave.ok (vals.map jsTrim) := by
  unfold saveSerials
  rw [collect_all_valid 0 vals hall]
  simp only []
  rw [if_neg (by simp), if_neg (by simpa using hq)]

theorem saveSerials_dup_of (vals : List String)
    (hall : ∀ v ∈ vals, classify (jsTrim v) = none)
    (hnd : ¬ (vals.map jsTrim).Nodup) :
    saveSerials (vals.length : Q) vals =
      SerialSave.duplicates (duplicatesOf (vals.map jsTrim)) := by
  unfold saveSerials
  rw [collect_all_valid 0 vals hall]
  simp only []
  rw [if_neg (by simp), if_pos]
  intro h
  have hlen : ((vals.map jsTrim).dedup.length : Nat) = vals.length := Nat.cast_injective h
  rw [← List.length_map vals jsTrim] at hlen
  exact hnd ((dedup_length_eq_iff (vals.map jsTrim)).mp hlen)

theorem saveSerials_invalid_eq (q : Q) (vals : List String) (inv : List (Nat × SerialFail))
    (h : saveSerials q vals = SerialSave.invalidInput inv) :
    inv = (List.enumFrom 0 vals).filterMap
      (fun p => (classify (jsTrim p.2)).map (fun f => (p.1, f))) := by
  revert h
  unfold saveSerials
  by_cases hinv : (collectSerials 0 vals).2 = []
  · rw [if_neg (by simp [hinv])]
    split
    · intro h
      exact absurd h (by simp)
    · intro h
      exact absurd h (by simp)
  · rw [if_pos (by simpa using hinv)]
    intro h
    cases h
    exact collect_snd_eq 0 vals

theorem saveSerials_invalid_of (q : Q) (vals : List String)
    (h : ∃ v ∈ vals, classify (jsTrim v) ≠ none) :
    saveSerials q vals = SerialSave.invalidInput ((collectSerials 0 vals).2) := by
  unfold saveSerials
  rw [if_pos]
  intro hc
  rcases h with ⟨v, hv, hcl⟩
  exact hcl ((collect_snd_nil_iff 0 vals).mp hc v hv)

theorem iterCount_natCast (n : Nat) : iterCount ((n : Nat) : Q) = n := by
  unfold iterCount
  rw [Int.ceil_natCast]
  rfl

theorem serialCheckErr_none (itno : String) (resp : String → MIResp ItmLot)
    (l : List String) (h : ∀ s ∈ l, checkSerOne itno s (resp s) = CheckResult.available) :
    serialCheckErr itno resp l = none := by
  induction l with
  | nil => rfl
  | cons s rest ih =>
    have hs := h s (List.mem_cons_self s rest)
    simp only [serialCheckErr, hs]
    exact ih (fun t ht => h t (List.mem_cons_of_mem s ht))

/-! ### Helper lemmas: reducing run to the branch flows -/

theorem run_eq_afterLookups (env : Env) (pl : POLine) (hd : POHead) (w : Option Unit)
    (itm : ItemData) (rstq : String)
    (hmf : missingFields env = [])
    (hline : env.lineResp = MIResp.success (some pl))
    (hhead : env.headResp = MIResp.success (some hd))
    (hwms : env.wmsResp = MIResp.success w)
    (hitem : env.itemResp = MIResp.success (some itm))
    (hwhsl : (!(itm.INDI = "0" && itm.TPCD = "13") && env.WHSL = "") = false)
    (hrem : env.remResp = MIResp.success (some rstq))
    (hrorc : pl.RORC ≠ "3") :
    run env = afterLookups env pl hd w.isSome itm rstq "" (lookupCalls env) := by
  unfold run
  rw [if_neg (by simp [hmf])]
  rw [hline, hhead, hwms, hitem]
  simp only [hwhsl, Bool.false_eq_true, if_false]
  rw [hrem]
  simp only [hrorc, decide_False, Bool.false_and, Bool.false_eq_true, if_false]
  rfl

theorem afterLookups_serial (env : Env) (pl : POLine) (hd : POHead) (isWms : Bool)
    (itm : ItemData) (rstq cuno : String) (calls : List MICall)
    (hpw : env.proceedWms = true)
    (hpo : env.proceedOver = true)
    (hindi : itm.INDI = "2") :
    afterLookups env pl hd isWms itm rstq cuno calls =
      serialFlow env (ctxOf env pl hd itm cuno) calls (isWms && !(pl.GETY == "24"))
        (overDiff env.RVQA rstq) := by
  unfold afterLookups
  rw [hpw, hpo]
  simp [hindi]

/-- The request sequence the receipt engine issues when every call
succeeds, before any status-failure rollback. -/
def procCalls (c : Ctx) (msgn : String) (lines : List RcptLine) : List MICall :=
  [mkWhsHead c, mkWhsPack c msgn] ++ lines.map (mkWhsLine c msgn)
    ++ [mkPrc msgn, mkGetWhsHead msgn]

theorem process_good (c : Ctx) (pe : ProcEnv) (lines : List RcptLine)
    (tracked : List EquipRec) (d : EquipRec → Bool) (msgn stat : String)
    (hh : pe.whsHeadResp = MIResp.success (some msgn)) (hm : msgn ≠ "")
    (hp : pe.whsPackOk = true)
    (hl : ∀ i, pe.whsLineOk i = true)
    (hprc : pe.prcResp = MIResp.success (some ()))
    (hst : pe.statResp = MIResp.success (some stat)) :
    process c pe lines tracked d =
      if stat = "90" then
        { calls := procCalls c msgn lines, deletions := [], tracked := tracked, err := none }
      else if tracked.isEmpty then
        { calls := procCalls c msgn lines, deletions := [], tracked := tracked,
          err := some (ProcErr.processing stat (diagCategory stat)) }
      else
        { calls := procCalls c msgn lines
            ++ (rollbackEquipment tracked d).deletions.map (fun p => mkDel p.1),
          deletions := (rollbackEquipment tracked d).deletions, tracked := [],
          err := some (ProcErr.processing stat (diagCategory stat)) } := by
  unfold process
  rw [hh]
  simp only []
  rw [if_neg hm]
  rw [hp]
  have hall : (List.range lines.length).all pe.whsLineOk = true := by
    rw [List.all_eq_true]
    intro i _
    exact hl i
  rw [hprc, hst]
  simp only [hall, Bool.not_true, Bool.false_eq_true, if_false]
  split
  · simp [procCalls]
  · split
    · simp [procCalls]
    · simp [procCalls, rollback_tracked_nil]

theorem serialFlow_reduce (env : Env) (c : Ctx) (calls : List MICall) (wmsW : Bool)
    (overW : Option Q) (N : Nat) (serials : List String)
    (hq : num (some env.RVQA) = ((N : Nat) : Q)) (hN : N ≤ 25)
    (hsave : saveSerials (num (some env.RVQA)) ((List.range N).map env.serialInput) =
      SerialSave.ok serials)
    (hchk : ∀ s ∈ serials, checkSerOne c.ITNO s (env.itmLotResp s) = CheckResult.available)
    (hadd : ∀ s ∈ serials, env.equipAdd s = CreateOutcome.created) :
    serialFlow env c calls wmsW overW =
      (let tr := serials.map (fun s => EquipRec.mk c.ITNO s)
       let pr := process c env.procEnv
         (serials.map (fun s => RcptLine.mk (some s) "1" none)) tr env.equipDel
       match pr.err with
       | none =>
         { calls := calls ++ serials.map (fun s => mkGetItmLot c.ITNO s)
             ++ serials.map (mkEquipAdd c) ++ pr.calls,
           tracked := [], deletions := pr.deletions, created := tr,
           promptCount := some N, wmsWarned := wmsW, overWarn := overW, outcome := none }
       | some e =>
         let rb2 := rollbackEquipment pr.tracked env.equipDel
         { calls := calls ++ serials.map (fun s => mkGetItmLot c.ITNO s)
             ++ serials.map (mkEquipAdd c) ++ pr.calls
             ++ rb2.deletions.map (fun p => mkDel p.1),
           tracked := rb2.tracked, deletions := pr.deletions ++ rb2.deletions,
           created := tr, promptCount := some N, wmsWarned := wmsW, overWarn := overW,
           outcome := some (RunErr.procFailed e) }) := by
  unfold serialFlow
  simp only [hq, iterCount_natCast]
  rw [if_neg (by exact_mod_cast Nat.not_lt.mpr hN)]
  rw [hq] at hsave
  rw [hsave]
  simp only []
  rw [serialCheckErr_none c.ITNO env.itmLotResp serials hchk]
  simp only []
  rw [addEquip_all_created c.ITNO serials env.equipAdd env.equipDel hadd]
  simp only [if_true]

/-! ### Helper lemmas: run-wide compensation invariants -/

theorem addEquip_trackedAtFailure_eq (itno : String) (serials : List String)
    (co : String → CreateOutcome) (d : EquipRec → Bool) :
    (addEquip itno serials co d).trackedAtFailure = createdSubset itno serials co := by
  unfold addEquip
  split <;> rfl

theorem addEquip_tracked_eq (itno : String) (serials : List String)
    (co : String → CreateOutcome) (d : EquipRec → Bool) :
    (addEquip itno serials co d).tracked =
      (if (addEquip itno serials co d).ok then createdSubset itno serials co else []) := by
  unfold addEquip
  split
  · simp
  · simp [rollback_tracked_nil]

/-- The three run-wide facts behind the compensation invariant, stated of
an arbitrary RunResult. -/
def CompInv (r : RunResult) (co : String → CreateOutcome) (itno : String) : Prop :=
  r.tracked = [] ∧
  (r.outcome = none → r.deletions = []) ∧
  (r.outcome ≠ none → r.deletions.map Prod.fst = r.created) ∧
  (∀ e ∈ r.created, co e.SERN = CreateOutcome.created ∧ e.ITNO = itno)

theorem bareRes_compInv (calls : List MICall) (wmsW : Bool) (overW : Option Q)
    (pc : Option Nat) (out : Option RunErr) (co : String → CreateOutcome) (itno : String) :
    CompInv (bareRes calls wmsW overW pc out) co itno := by
  refine ⟨rfl, fun _ => rfl, fun _ => rfl, ?_⟩
  intro e he
  exact absurd he (List.not_mem_nil e)

theorem serialFlow_compInv (env : Env) (c : Ctx) (calls : List MICall) (wmsW : Bool)
    (overW : Option Q) :
    CompInv (serialFlow env c calls wmsW overW) env.equipAdd c.ITNO := by
  unfold serialFlow
  by_cases hl : 25 < num (some env.RVQA)
  · rw [if_pos hl]
    exact bareRes_compInv _ _ _ _ _ _ _
  · rw [if_neg hl]
    simp only []
    rcases hs : saveSerials (num (some env.RVQA))
        ((List.range (iterCount (num (some env.RVQA)))).map env.serialInput) with
      serials | inv | dups
    · simp only []
      rcases hcc : serialCheckErr c.ITNO env.itmLotResp serials with _ | e
      · simp only []
        by_cases hok : (addEquip c.ITNO serials env.equipAdd env.equipDel).ok = true
        · rw [if_pos hok]
          have htaf := addEquip_trackedAtFailure_eq c.ITNO serials env.equipAdd env.equipDel
          have htr : (addEquip c.ITNO serials env.equipAdd env.equipDel).tracked
              = createdSubset c.ITNO serials env.equipAdd := by
            rw [addEquip_tracked_eq]
            simp [hok]
          rcases he : (process c env.procEnv
              (serials.map (fun s => RcptLine.mk (some s) "1" none))
              (addEquip c.ITNO serials env.equipAdd env.equipDel).tracked
              env.equipDel).err with _ | e2
          · refine ⟨rfl, fun _ => ?_, fun hcon => absurd rfl hcon, ?_⟩
            · exact (process_ok_no_deletions _ _ _ _ _ he).1
            · intro e hme
              rw [htaf] at hme
              have hm := (mem_createdSubset _ _ _ _).mp hme
              exact ⟨hm.2.2, hm.1⟩
          · refine ⟨rollback_tracked_nil _ _, ?_, fun _ => ?_, ?_⟩
            · intro hcon
              exact absurd hcon (by simp)
            · rw [List.map_append, rollback_deletions_fst, htaf, ← htr]
              exact process_deletions_append_tracked c env.procEnv _ _ env.equipDel
            · intro e hme
              rw [htaf] at hme
              have hm := (mem_createdSubset _ _ _ _).mp hme
              exact ⟨hm.2.2, hm.1⟩
        · rw [if_neg hok]
          refine ⟨?_, ?_, fun _ => ?_, ?_⟩
          · rw [addEquip_tracked_eq]
            simp [hok]
          · intro hcon
            exact absurd hcon (by simp)
          · rw [rollback_deletions_fst, addEquip_trackedAtFailure_eq]
          · intro e hme
            rw [addEquip_trackedAtFailure_eq] at hme
            have hm := (mem_createdSubset _ _ _ _).mp hme
            exact ⟨hm.2.2, hm.1⟩
      · simp only []
        exact bareRes_compInv _ _ _ _ _ _ _
    · simp only []
      exact bareRes_compInv _ _ _ _ _ _ _
    · simp only []
      exact bareRes_compInv _ _ _ _ _ _ _

theorem lotFlow_compInv (env : Env) (c : Ctx) (expd : String) (calls : List MICall)
    (wmsW : Bool) (overW : Option Q) :
    CompInv (lotFlow env c expd calls wmsW overW) env.equipAdd c.ITNO := by
  unfold lotFlow
  rcases hs : saveLot expd env.lotInput env.expInput with ⟨lot, expi⟩ | errs
  · simp only []
    rcases hc : checkLotOne c.ITNO lot (env.itmLotResp lot) with _ | ⟨a, b⟩ | sc
    · have hinv := process_deletions_append_tracked c env.procEnv
        [RcptLine.mk (some lot) env.RVQA expi] [] env.equipDel
      have hdel : (process c env.procEnv
          [RcptLine.mk (some lot) env.RVQA expi] [] env.equipDel).deletions = [] :=
        List.map_eq_nil_iff.mp (List.append_eq_nil.mp hinv).1
      have htr : (process c env.procEnv
          [RcptLine.mk (some lot) env.RVQA expi] [] env.equipDel).tracked = [] :=
        (List.append_eq_nil.mp hinv).2
      refine ⟨?_, ?_, ?_, ?_⟩
      · exact htr
      · exact fun _ => hdel
      · intro hne
        simp [hdel]
      · intro e hme
        exact absurd hme (List.not_mem_nil e)
    · exact bareRes_compInv _ _ _ _ _ _ _
    · exact bareRes_compInv _ _ _ _ _ _ _
  · exact bareRes_compInv _ _ _ _ _ _ _

theorem noneFlow_compInv (env : Env) (c : Ctx) (calls : List MICall) (wmsW : Bool)
    (overW : Option Q) :
    CompInv (noneFlow env c calls wmsW overW) env.equipAdd c.ITNO := by
  unfold noneFlow
  by_cases hc : env.confirmOk
  on_goal 2 => simp only [hc, Bool.not_false, if_true]; exact bareRes_compInv _ _ _ _ _ _ _
  simp only [hc, Bool.not_true, Bool.false_eq_true, if_false]
  set pr := process c env.procEnv [RcptLine.mk none env.RVQA none] [] env.equipDel with hpr
  have hinv := process_deletions_append_tracked c env.procEnv
    [RcptLine.mk none env.RVQA none] [] env.equipDel
  rw [← hpr] at hinv
  have hdel : pr.deletions = [] := by
    have := List.append_eq_nil.mp hinv
    exact List.map_eq_nil_iff.mp this.1
  have htr : pr.tracked = [] := (List.append_eq_nil.mp hinv).2
  refine ⟨htr, fun _ => hdel, fun _ => by simp [hdel], ?_⟩
  intro e hme
  exact absurd hme (List.not_mem_nil e)

theorem afterLookups_compInv (env : Env) (pl : POLine) (hd : POHead) (isWms : Bool)
    (itm : ItemData) (rstq cuno : String) (calls : List MICall) :
    CompInv (afterLookups env pl hd isWms itm rstq cuno calls) env.equipAdd env.ITNO := by
  have hitno : (ctxOf env pl hd itm cuno).ITNO = env.ITNO := rfl
  rw [← hitno]
  unfold afterLookups
  simp only []
  split
  · exact bareRes_compInv _ _ _ _ _ _ _
  · split
    · exact bareRes_compInv _ _ _ _ _ _ _
    · split
      · exact serialFlow_compInv _ _ _ _ _
      · split
        · exact lotFlow_compInv _ _ _ _ _ _
        · exact noneFlow_compInv _ _ _ _ _

theorem run_compInv (env : Env) : CompInv (run env) env.equipAdd env.ITNO := by
  unfold run
  repeat' split
  all_goals
    first
    | exact bareRes_compInv _ _ _ _ _ _ _
    | exact afterLookups_compInv _ _ _ _ _ _ _ _

/-! ### Hypothesis bundles for run-level statements -/

/-- The screen fields are present, every lookup succeeds, and the line is
not drop-ship linked: the run reaches the warnings step. -/
structure GoodLookups (env : Env) (pl : POLine) (hd : POHead) (w : Option Unit)
    (itm : ItemData) (rstq : String) : Prop where
  hmf : missingFields env = []
  hline : env.lineResp = MIResp.success (some pl)
  hhead : env.headResp = MIResp.success (some hd)
  hwms : env.wmsResp = MIResp.success w
  hitem : env.itemResp = MIResp.success (some itm)
  hwhsl : (!(itm.INDI = "0" && itm.TPCD = "13") && env.WHSL = "") = false
  hrem : env.remResp = MIResp.success (some rstq)
  hrorc : pl.RORC ≠ "3"

/-- Every remote call of the receipt engine succeeds, and the terminal
status poll returns the given status. -/
structure GoodProc (pe : ProcEnv) (msgn stat : String) : Prop where
  hh : pe.whsHeadResp = MIResp.success (some msgn)
  hm : msgn ≠ ""
  hp : pe.whsPackOk = true
  hl : ∀ i, pe.whsLineOk i = true
  hprc : pe.prcResp = MIResp.success (some ())
  hst : pe.statResp = MIResp.success (some stat)

theorem run_reaches_branch (env : Env) (pl : POLine) (hd : POHead) (w : Option Unit)
    (itm : ItemData) (rstq : String) (g : GoodLookups env pl hd w itm rstq) :
    run env = afterLookups env pl hd w.isSome itm rstq "" (lookupCalls env) :=
  run_eq_afterLookups env pl hd w itm rstq g.hmf g.hline g.hhead g.hwms g.hitem
    g.hwhsl g.hrem g.hrorc

theorem run_serial_eq (env : Env) (pl : POLine) (hd : POHead) (w : Option Unit)
    (itm : ItemData) (rstq : String) (g : GoodLookups env pl hd w itm rstq)
    (hpw : env.proceedWms = true) (hpo : env.proceedOver = true) (hindi : itm.INDI = "2") :
    run env = serialFlow env (ctxOf env pl hd itm "") (lookupCalls env)
      (w.isSome && !(pl.GETY == "24")) (overDiff env.RVQA rstq) := by
  rw [run_reaches_branch env pl hd w itm rstq g]
  exact afterLookups_serial env pl hd w.isSome itm rstq "" (lookupCalls env) hpw hpo hindi

/-! ### More validation helpers -/

theorem classify_none_iff (v : String) :
    classify v = none ↔ (v ≠ "" ∧ v.length ≤ 20 ∧ serialRegexOk v = true) := by
  unfold classify
  by_cases h1 : v = ""
  · simp [h1]
  · by_cases h2 : 20 < v.length
    · simp [h1, h2]
    · by_cases h3 : serialRegexOk v
      · simp [h1, h2, h3]
        omega
      · simp [h1, h2, h3]

theorem mem_collect_snd (i : Nat) (vals : List String) (j : Nat) (f : SerialFail) :
    (j, f) ∈ (collectSerials i vals).2 ↔
      ∃ k v, j = i + k ∧ vals[k]? = some v ∧ classify (jsTrim v) = some f := by
  induction vals generalizing i with
  | nil => simp [collectSerials]
  | cons v rest ih =>
    simp only [collectSerials]
    cases h : classify (jsTrim v) with
    | none =>
      simp only []
      rw [ih (i + 1)]
      constructor
      · rintro ⟨k, w, rfl, hw, hc⟩
        exact ⟨k + 1, w, by omega, by simpa using hw, hc⟩
      · rintro ⟨k, w, hj, hw, hc⟩
        cases k with
        | zero =>
          simp only [List.getElem?_cons_zero, Option.some_inj] at hw
          subst hw
          rw [hc] at h
          exact absurd h (by simp)
        | succ k2 =>
          exact ⟨k2, w, by omega, by simpa using hw, hc⟩
    | some f2 =>
      simp only [List.mem_cons]
      rw [ih (i + 1)]
      constructor
      · rintro (heq | ⟨k, w, rfl, hw, hc⟩)
        · injection heq with h1 h2
          subst h1
          subst h2
          exact ⟨0, v, by omega, by simp, h⟩
        · exact ⟨k + 1, w, by omega, by simpa using hw, hc⟩
      · rintro ⟨k, w, hj, hw, hc⟩
        cases k with
        | zero =>
          simp only [List.getElem?_cons_zero, Option.some_inj] at hw
          subst hw
          rw [h] at hc
          left
          rw [Prod.mk.injEq]
          exact ⟨by omega, by simpa using hc.symm⟩
        | succ k2 =>
          right
          exact ⟨k2, w, by omega, by simpa using hw, hc⟩

theorem exists_ok_iff (vals : List String) :
    (∃ s, saveSerials (vals.length : Q) vals = SerialSave.ok s) ↔
      ((∀ v ∈ vals, classify (jsTrim v) = none) ∧ (vals.map jsTrim).Nodup) := by
  constructor
  · rintro ⟨s, hs⟩
    obtain ⟨hser, hall, hlen⟩ := saveSerials_ok_inv _ _ _ hs
    refine ⟨hall, ?_⟩
    have hn : ((vals.map jsTrim).dedup.length : Nat) = vals.length := Nat.cast_injective hlen
    rw [← List.length_map vals jsTrim] at hn
    exact (dedup_length_eq_iff (vals.map jsTrim)).mp hn
  · rintro ⟨hall, hnd⟩
    exact ⟨vals.map jsTrim, (saveSerials_ok_iff vals).mpr ⟨hall, hnd⟩⟩

theorem serials_of_ok_nonempty (q : Q) (vals serials : List String)
    (h : saveSerials q vals = SerialSave.ok serials) :
    ∀ s ∈ serials, s ≠ "" := by
  obtain ⟨hser, hall, _⟩ := saveSerials_ok_inv _ _ _ h
  subst hser
  intro s hs
  rcases List.mem_map.mp hs with ⟨v, hv, rfl⟩
  exact ((classify_none_iff (jsTrim v)).mp (hall v hv)).1

/-! ### Line-request field lemmas -/

theorem lookup_line_RVQA (c : Ctx) (msgn : String) (rec : RcptLine) :
    List.lookup "RVQA" (mkWhsLine c msgn rec).record = some rec.RVQA := by
  unfold mkWhsLine
  simp [List.lookup]

theorem lookup_line_PACN (c : Ctx) (msgn : String) (rec : RcptLine) :
    List.lookup "PACN" (mkWhsLine c msgn rec).record = some (packNumber c) := by
  unfold mkWhsLine
  simp [List.lookup]

theorem lookup_line_BANO (c : Ctx) (msgn s : String) (hs : s ≠ "") :
    List.lookup "BANO" (mkWhsLine c msgn (RcptLine.mk (some s) "1" none)).record = some s := by
  unfold mkWhsLine
  cases h : isNonMaterial c <;> simp [List.lookup, hs]

theorem lookup_line_EXPI_none (c : Ctx) (msgn s : String) :
    List.lookup "EXPI" (mkWhsLine c msgn (RcptLine.mk (some s) "1" none)).record = none := by
  unfold mkWhsLine
  cases h : isNonMaterial c <;> by_cases hs : s = "" <;> simp [List.lookup, hs]

/-! ### overWarn propagation -/

theorem serialFlow_overWarn (env : Env) (c : Ctx) (calls : List MICall) (wmsW : Bool)
    (overW : Option Q) : (serialFlow env c calls wmsW overW).overWarn = overW := by
  unfold serialFlow
  simp only []
  repeat' split
  all_goals rfl

theorem lotFlow_overWarn (env : Env) (c : Ctx) (expd : String) (calls : List MICall)
    (wmsW : Bool) (overW : Option Q) :
    (lotFlow env c expd calls wmsW overW).overWarn = overW := by
  unfold lotFlow
  simp only []
  repeat' split
  all_goals rfl

theorem noneFlow_overWarn (env : Env) (c : Ctx) (calls : List MICall) (wmsW : Bool)
    (overW : Option Q) : (noneFlow env c calls wmsW overW).overWarn = overW := by
  unfold noneFlow
  simp only []
  repeat' split
  all_goals rfl

theorem afterLookups_overWarn (env : Env) (pl : POLine) (hd : POHead) (isWms : Bool)
    (itm : ItemData) (rstq cuno : String) (calls : List MICall)
    (hpw : env.proceedWms = true) :
    (afterLookups env pl hd isWms itm rstq cuno calls).overWarn = overDiff env.RVQA rstq := by
  unfold afterLookups
  rw [hpw]
  simp only [Bool.not_true, Bool.and_false, Bool.false_eq_true, if_false]
  split
  · rfl
  · split
    · exact serialFlow_overWarn _ _ _ _ _
    · split
      · exact lotFlow_overWarn _ _ _ _ _ _
      · exact noneFlow_overWarn _ _ _ _ _

/-! ### Concrete environments for witnesses and counterexamples -/

/-- A PO line record used by the concrete environments. -/
def wLine : POLine :=
  { PUPR := "9.99", RORC := "0", RORN := "", RORL := "", ITDS := "Widget", GETY := "20" }

/-- A PO header record used by the concrete environments. -/
def wHead : POHead := { PUDT := "20261001", CUCD := "USD", FACI := "F1" }

/-- Item data for a serial-controlled item. -/
def wItemSerial : ItemData := { EXPD := "0", INDI := "2", TPCD := "0" }

/-- A receipt-engine environment whose calls all succeed and whose status
poll returns the given status. -/
def wProc (stat : String) : ProcEnv :=
  { whsHeadResp := MIResp.success (some "MSG1"), whsPackOk := true,
    whsLineOk := fun _ => true, prcResp := MIResp.success (some ()),
    statResp := MIResp.success (some stat) }

/-- Operator serial entries for the concrete environments. -/
def wInput (i : Nat) : String := if i = 0 then "SER-1" else "SER-2"

/-- A concrete run environment for a serial-controlled line, parameterised
by the quantity fields, the terminal status, the over-receipt decision and
the equipment-creation oracle. -/
def mkWEnv (rvqa rmqa stat : String) (po : Bool) (add : String → CreateOutcome) : Env :=
  { PUNO := "PO1", SUNO := "SUP1", WHLO := "WH1", PNLI := "10", PNLS := "0",
    RVQA := rvqa, WHSL := "LOC1", ITNO := "ITEM1", OEND := "0", today := "20261012",
    lineResp := MIResp.success (some wLine), headResp := MIResp.success (some wHead),
    wmsResp := MIResp.success none, itemResp := MIResp.success (some wItemSerial),
    remResp := MIResp.success (some rmqa), custResp := MIResp.success none,
    proceedWms := true, proceedOver := po, serialInput := wInput,
    lotInput := "", expInput := "", confirmOk := true,
    itmLotResp := fun _ => MIResp.failure (some 400),
    equipAdd := add, equipDel := fun _ => true,
    procEnv := wProc stat }

/-- The environment in which creation of the second equipment record is
rejected by the remote system. -/
def envPartial : Env :=
  mkWEnv "2" "5" "90" true
    (fun s => if s == "SER-1" then CreateOutcome.created else CreateOutcome.rejected)

/-! ### Claim theorems -/

/-- C1.  Compensation invariant: whenever the run fails after any
provisional equipment record has been created, the compensation routine
attempts remote deletion of every record still tracked at the point of
failure (an individual deletion failure never prevents the others, since
the attempts list does not depend on the deletion outcomes), after
compensation the tracking list is empty regardless of individual deletion
outcomes, and only records whose creation call returned a record are ever
tracked, so compensation deletes exactly the already-created subset. -/
theorem C1_compensation_invariant (tracked : List EquipRec) (delOk : EquipRec → Bool)
    (env : Env) :
    ((rollbackEquipment tracked delOk).deletions.map Prod.fst = tracked ∧
      (rollbackEquipment tracked delOk).tracked = []) ∧
    (run env).tracked = [] ∧
    ((run env).outcome = none → (run env).deletions = []) ∧
    ((run env).outcome ≠ none → (run env).deletions.map Prod.fst = (run env).created) ∧
    (∀ e ∈ (run env).created,
       env.equipAdd e.SERN = CreateOutcome.created ∧ e.ITNO = env.ITNO) := by
  obtain ⟨h1, h2, h3, h4⟩ := run_compInv env
  exact ⟨⟨rollback_deletions_fst _ _, rollback_tracked_nil _ _⟩, h1, h2, h3, h4⟩

/-- C1 witness: in the environment where creation of the second record is
rejected, the run fails and its deletion attempts are exactly the created
subset; rollback of a concrete record list attempts every record even when
every deletion fails. -/
theorem C1_compensation_invariant_witness :
    ((run envPartial).outcome ≠ none ∧
      (run envPartial).deletions.map Prod.fst = (run envPartial).created ∧
      (run envPartial).tracked = []) ∧
    (rollbackEquipment [EquipRec.mk "ITEM1" "SER-1"] (fun _ => false)).deletions.map
      Prod.fst = [EquipRec.mk "ITEM1" "SER-1"] := by
  refine ⟨⟨by decide, ?_, ?_⟩, ?_⟩
  · exact (C1_compensation_invariant [] (fun _ => false) envPartial).2.2.2.1 (by decide)
  · exact (C1_compensation_invariant [] (fun _ => false) envPartial).2.1
  · exact (C1_compensation_invariant [EquipRec.mk "ITEM1" "SER-1"] (fun _ => false)
      envPartial).1.1

/-- The two check routines share one decision structure. -/
theorem checkLotOne_eq_checkSerOne : checkLotOne = checkSerOne := rfl

/-- C7 counterexample: the already-registered check also succeeds on a
resolved lookup whose record does not match the queried item, so the check
does not succeed exactly when the remote lookup signals the not-found
status: here the response is a resolved record for another item, not the
not-found rejection, and the check still treats the serial as
available. -/
theorem C7_counterexample :
    checkSerOne "ITEM1" "S1" (MIResp.success (some (ItmLot.mk "OTHER" "S1"))) =
      CheckResult.available ∧
    MIResp.success (some (ItmLot.mk "OTHER" "S1")) ≠
      (MIResp.failure (some 400) : MIResp ItmLot) := by
  decide

/-- C7 amended: the already-registered check treats the identifier as
available when the remote lookup rejects with the not-found status 400 and
also when a resolved response carries no record matching both the queried
item and identifier; it fails with the already-exists error exactly on a
both-fields match; and it propagates any other rejection unchanged, for
serials and lots alike. -/
theorem C7_check_decision (itno bano : String) (sc : Option Int) (r : ItmLot) :
    (checkSerOne itno bano (MIResp.failure (some 400)) = CheckResult.available) ∧
    (sc ≠ some 400 →
      checkSerOne itno bano (MIResp.failure sc) = CheckResult.remoteError sc) ∧
    (r.ITNO = itno → r.BANO = bano →
      checkSerOne itno bano (MIResp.success (some r)) = CheckResult.alreadyExists itno bano) ∧
    (¬(r.ITNO = itno ∧ r.BANO = bano) →
      checkSerOne itno bano (MIResp.success (some r)) = CheckResult.available) ∧
    (checkSerOne itno bano (MIResp.success none) = CheckResult.available) ∧
    (checkLotOne itno bano (MIResp.failure (some 400)) = CheckResult.available) ∧
    (sc ≠ some 400 →
      checkLotOne itno bano (MIResp.failure sc) = CheckResult.remoteError sc) ∧
    (r.ITNO = itno → r.BANO = bano →
      checkLotOne itno bano (MIResp.success (some r)) = CheckResult.alreadyExists itno bano) ∧
    (¬(r.ITNO = itno ∧ r.BANO = bano) →
      checkLotOne itno bano (MIResp.success (some r)) = CheckResult.available) ∧
    (checkLotOne itno bano (MIResp.success none) = CheckResult.available) := by
  rw [checkLotOne_eq_checkSerOne]
  refine ⟨?_, ?_, ?_, ?_, ?_, ?_, ?_, ?_, ?_, ?_⟩ <;>
    first
    | (intro h1 h2; simp [checkSerOne, h1, h2])
    | (intro h1; simp [checkSerOne, h1])
    | simp [checkSerOne]

/-- C7 witness: the amended decision rules at concrete inputs. -/
theorem C7_check_decision_witness :
    ((some 500 : Option Int) ≠ some 400 ∧
      checkSerOne "ITEM1" "S1" (MIResp.failure (some 500)) =
        CheckResult.remoteError (some 500)) ∧
    checkSerOne "ITEM1" "S1" (MIResp.success (some (ItmLot.mk "ITEM1" "S1"))) =
      CheckResult.alreadyExists "ITEM1" "S1" := by
  refine ⟨⟨by decide, ?_⟩, ?_⟩
  · exact (C7_check_decision "ITEM1" "S1" (some 500) (ItmLot.mk "ITEM1" "S1")).2.1
      (by decide)
  · exact (C7_check_decision "ITEM1" "S1" (some 500)
      (ItmLot.mk "ITEM1" "S1")).2.2.1 rfl rfl

/-- C10.  When the lookup resolves but the returned record does not match
both queried fields, or carries no record at all, the check passes; the
already-exists error arises exactly from a resolved response whose record
matches both the queried item and identifier, for serials and lots
alike. -/
theorem C10_nonmatching_record_passes (itno bano : String) (resp : MIResp ItmLot) :
    ((∃ a b, checkSerOne itno bano resp = CheckResult.alreadyExists a b) ↔
      (∃ r, resp = MIResp.success (some r) ∧ r.ITNO = itno ∧ r.BANO = bano)) ∧
    (∀ r, resp = MIResp.success (some r) → ¬(r.ITNO = itno ∧ r.BANO = bano) →
      checkSerOne itno bano resp = CheckResult.available) ∧
    (resp = MIResp.success none → checkSerOne itno bano resp = CheckResult.available) ∧
    ((∃ a b, checkLotOne itno bano resp = CheckResult.alreadyExists a b) ↔
      (∃ r, resp = MIResp.success (some r) ∧ r.ITNO = itno ∧ r.BANO = bano)) ∧
    (∀ r, resp = MIResp.success (some r) → ¬(r.ITNO = itno ∧ r.BANO = bano) →
      checkLotOne itno bano resp = CheckResult.available) ∧
    (resp = MIResp.success none → checkLotOne itno bano resp = CheckResult.available) := by
  rw [checkLotOne_eq_checkSerOne]
  have hiff : (∃ a b, checkSerOne itno bano resp = CheckResult.alreadyExists a b) ↔
      (∃ r, resp = MIResp.success (some r) ∧ r.ITNO = itno ∧ r.BANO = bano) := by
    rcases resp with it | sc
    · rcases it with _ | r0
      · simp [checkSerOne]
      · by_cases h : r0.ITNO = itno ∧ r0.BANO = bano
        · simp only [checkSerOne, if_pos h]
          constructor
          · intro _
            exact ⟨r0, rfl, h⟩
          · intro _
            exact ⟨itno, bano, rfl⟩
        · simp only [checkSerOne, if_neg h]
          constructor
          · rintro ⟨a, b, hab⟩
            exact absurd hab (by simp)
          · rintro ⟨r1, hr1, hm⟩
            rw [MIResp.success.injEq, Option.some_inj] at hr1
            exact absurd (hr1 ▸ hm) h
    · constructor
      · rintro ⟨a, b, hab⟩
        revert hab
        simp only [checkSerOne]
        split <;> simp
      · rintro ⟨r1, hr1, _⟩
        exact absurd hr1 (by simp)
  have hpass : ∀ r, resp = MIResp.success (some r) → ¬(r.ITNO = itno ∧ r.BANO = bano) →
      checkSerOne itno bano resp = CheckResult.available := by
    rintro r rfl h
    simp [checkSerOne, h]
  have hnone : resp = MIResp.success none →
      checkSerOne itno bano resp = CheckResult.available := by
    rintro rfl
    rfl
  exact ⟨hiff, hpass, hnone, hiff, hpass, hnone⟩

/-- C10 witness: a resolved lookup with a record for a different item
passes the check rather than raising any error. -/
theorem C10_nonmatching_record_passes_witness :
    (MIResp.success (some (ItmLot.mk "OTHER" "S1")) =
        MIResp.success (some (ItmLot.mk "OTHER" "S1")) ∧
      ¬((ItmLot.mk "OTHER" "S1").ITNO = "ITEM1" ∧ (ItmLot.mk "OTHER" "S1").BANO = "S1")) ∧
    checkSerOne "ITEM1" "S1" (MIResp.success (some (ItmLot.mk "OTHER" "S1"))) =
      CheckResult.available := by
  refine ⟨⟨rfl, by decide⟩, ?_⟩
  exact (C10_nonmatching_record_passes "ITEM1" "S1"
    (MIResp.success (some (ItmLot.mk "OTHER" "S1")))).2.1 (ItmLot.mk "OTHER" "S1") rfl
    (by decide)

theorem saveSerials_invalid_collect (q : Q) (vals : List String)
    (inv : List (Nat × SerialFail)) (h : saveSerials q vals = SerialSave.invalidInput inv) :
    inv = (collectSerials 0 vals).2 := by
  revert h
  unfold saveSerials
  by_cases hinv : (collectSerials 0 vals).2 = []
  · rw [if_neg (by simp [hinv])]
    split
    · intro h
      exact absurd h (by simp)
    · intro h
      exact absurd h (by simp)
  · rw [if_pos (by simpa using hinv)]
    intro h
    cases h
    rfl

/-- C5.  Format validation checks every entry for being non-blank, at most
20 characters and matching the alphanumeric-plus-hyphen rule; a failing
batch is reported with the complete list of failing entries (one entry per
failing field, not just the first); a batch is accepted exactly when every
entry passes and the trimmed batch has no duplicates; and in the lot
dialog both a bad lot and a missing required expiration date are collected
into one error list. -/
theorem C5_collect_all_violations (vals : List String) (lotIn expIn : String) :
    (∀ v, classify v = none ↔ (v ≠ "" ∧ v.length ≤ 20 ∧ serialRegexOk v = true)) ∧
    (saveSerials (vals.length : Q) vals = SerialSave.ok (vals.map jsTrim) ↔
      ((∀ v ∈ vals, classify (jsTrim v) = none) ∧ (vals.map jsTrim).Nodup)) ∧
    (∀ q inv, saveSerials q vals = SerialSave.invalidInput inv →
      ∀ j f, (j, f) ∈ inv ↔ ∃ v, vals[j]? = some v ∧ classify (jsTrim v) = some f) ∧
    (∀ q, (∃ v ∈ vals, classify (jsTrim v) ≠ none) →
      saveSerials q vals = SerialSave.invalidInput ((collectSerials 0 vals).2)) ∧
    ((jsTrim lotIn = "" ∨ 20 < (jsTrim lotIn).length ∨ serialRegexOk (jsTrim lotIn) = false) →
      expIn = "" →
      saveLot "1" lotIn expIn = LotSave.invalid [LotFail.lotFormat, LotFail.expRequired]) := by
  refine ⟨classify_none_iff, saveSerials_ok_iff vals, ?_, ?_, ?_⟩
  · intro q inv h j f
    rw [saveSerials_invalid_collect q vals inv h]
    rw [mem_collect_snd 0 vals j f]
    constructor
    · rintro ⟨k, v, hij, hv, hc⟩
      exact ⟨v, by rw [show j = k by omega]; exact hv, hc⟩
    · rintro ⟨v, hv, hc⟩
      exact ⟨j, v, by omega, hv, hc⟩
  · intro q h
    exact saveSerials_invalid_of q vals h
  · intro hbad hexp
    unfold saveLot
    rw [if_pos rfl, if_pos hexp, if_pos hbad]
    rfl

/-- C5 witness: a batch with a blank first entry and a lowercase second
entry is rejected with both failures listed; the concrete valid batch is
accepted. -/
theorem C5_collect_all_violations_witness :
    (saveSerials ((["", "a1", "OK-3"].length : Nat) : Q) ["", "a1", "OK-3"] =
        SerialSave.invalidInput [(0, SerialFail.blank), (1, SerialFail.badChars)] ∧
      ((0, SerialFail.blank) ∈ [(0, SerialFail.blank), (1, SerialFail.badChars)] ↔
        ∃ v, (["", "a1", "OK-3"])[0]? = some v ∧ classify (jsTrim v) = some SerialFail.blank)) ∧
    ((jsTrim "lot!" = "" ∨ 20 < (jsTrim "lot!").length ∨ serialRegexOk (jsTrim "lot!") = false) ∧
      saveLot "1" "lot!" "" = LotSave.invalid [LotFail.lotFormat, LotFail.expRequired]) := by
  refine ⟨⟨by decide, ?_⟩, ⟨by decide, ?_⟩⟩
  · exact (C5_collect_all_violations ["", "a1", "OK-3"] "lot!" "").2.2.1
      (((["", "a1", "OK-3"].length : Nat) : Q))
      [(0, SerialFail.blank), (1, SerialFail.badChars)] (by decide) 0 SerialFail.blank
  · exact (C5_collect_all_violations ["", "a1", "OK-3"] "lot!" "").2.2.2.2 (by decide) rfl

/-- C6.  Over format-valid batches, duplicate rejection is
position-independent: a batch with any repeated trimmed identifier is
rejected with a duplicates error naming each repeated value exactly once,
and two batches that are permutations of each other are both accepted or
both rejected. -/
theorem C6_duplicates_position_independent (vals vals2 : List String)
    (hv : ∀ v ∈ vals, classify (jsTrim v) = none)
    (hperm : vals.Perm vals2) :
    (¬ (vals.map jsTrim).Nodup →
      saveSerials (vals.length : Q) vals =
        SerialSave.duplicates (duplicatesOf (vals.map jsTrim)) ∧
      (duplicatesOf (vals.map jsTrim)).Nodup ∧
      (∀ x, x ∈ duplicatesOf (vals.map jsTrim) ↔ 2 ≤ (vals.map jsTrim).count x)) ∧
    ((∃ s, saveSerials (vals.length : Q) vals = SerialSave.ok s) ↔
      (∃ s, saveSerials (vals2.length : Q) vals2 = SerialSave.ok s)) := by
  constructor
  · intro hnd
    exact ⟨saveSerials_dup_of vals hv hnd, nodup_duplicatesOf _,
      fun x => mem_duplicatesOf (vals.map jsTrim) x⟩
  · rw [exists_ok_iff vals, exists_ok_iff vals2]
    have hv2 : ∀ v ∈ vals2, classify (jsTrim v) = none := by
      intro v hvm
      exact hv v (hperm.mem_iff.mpr hvm)
    have hmapperm : (vals.map jsTrim).Perm (vals2.map jsTrim) := hperm.map jsTrim
    constructor
    · rintro ⟨_, hnd⟩
      exact ⟨hv2, hmapperm.nodup_iff.mp hnd⟩
    · rintro ⟨_, hnd⟩
      exact ⟨hv, hmapperm.nodup_iff.mpr hnd⟩

/-- C6 witness: the batch A B A (duplicate first and last) and its
permutation A A B are both rejected; the duplicates list names A once. -/
theorem C6_duplicates_position_independent_witness :
    ((∀ v ∈ ["A", "B", "A"], classify (jsTrim v) = none) ∧
      List.Perm ["A", "B", "A"] ["A", "A", "B"]) ∧
    (¬ ((["A", "B", "A"].map jsTrim).Nodup) ∧
      saveSerials ((["A", "B", "A"].length : Nat) : Q) ["A", "B", "A"] =
        SerialSave.duplicates (duplicatesOf (["A", "B", "A"].map jsTrim)) ∧
      duplicatesOf (["A", "B", "A"].map jsTrim) = ["A"]) ∧
    ((∃ s, saveSerials ((["A", "B", "A"].length : Nat) : Q) ["A", "B", "A"] =
        SerialSave.ok s) ↔
      (∃ s, saveSerials ((["A", "A", "B"].length : Nat) : Q) ["A", "A", "B"] =
        SerialSave.ok s)) := by
  refine ⟨⟨by decide, by decide⟩, ⟨by decide, ?_, by decide⟩, ?_⟩
  · exact ((C6_duplicates_position_independent ["A", "B", "A"] ["A", "A", "B"]
      (by decide) (by decide)).1 (by decide)).1
  · exact (C6_duplicates_position_independent ["A", "B", "A"] ["A", "A", "B"]
      (by decide) (by decide)).2

theorem lookupCalls_no_writes (env : Env) : (lookupCalls env).filter isWriteCall = [] := rfl

/-- C4 counterexample: with a requested quantity of 26 the run does fail
with the limit-exceeded error, but five remote lookup calls have already
been issued before that failure, so the failure does not occur before any
remote call is made. -/
theorem C4_counterexample :
    (run (mkWEnv "26" "99" "90" true (fun _ => CreateOutcome.created))).outcome =
      some (RunErr.limitExceeded 26) ∧
    (run (mkWEnv "26" "99" "90" true (fun _ => CreateOutcome.created))).calls ≠ [] ∧
    (run (mkWEnv "26" "99" "90" true (fun _ => CreateOutcome.created))).calls.length = 5 := by
  decide

/-- C4 amended: for every requested quantity parsing to N with N above the
fixed maximum of 25, a run that reaches the serial branch fails with the
limit-exceeded error before any serial-entry prompt and before any remote
write call is made; the five read lookups have already been issued at that
point. -/
theorem C4_limit_exceeded (env : Env) (pl : POLine) (hd : POHead) (w : Option Unit)
    (itm : ItemData) (rstq : String) (N : Nat)
    (g : GoodLookups env pl hd w itm rstq)
    (hpw : env.proceedWms = true) (hpo : env.proceedOver = true) (hindi : itm.INDI = "2")
    (hq : num (some env.RVQA) = ((N : Nat) : Q)) (hN : 25 < N) :
    (run env).outcome = some (RunErr.limitExceeded ((N : Nat) : Q)) ∧
    (run env).promptCount = none ∧
    (run env).calls = lookupCalls env ∧
    ((run env).calls.filter isWriteCall) = [] := by
  rw [run_serial_eq env pl hd w itm rstq g hpw hpo hindi]
  unfold serialFlow
  simp only [hq]
  rw [if_pos (by exact_mod_cast hN)]
  exact ⟨rfl, rfl, rfl, lookupCalls_no_writes env⟩

/-- C4 witness: the amended statement at the concrete quantity 26. -/
theorem C4_limit_exceeded_witness :
    (num (some (mkWEnv "26" "99" "90" true (fun _ => CreateOutcome.created)).RVQA) =
        ((26 : Nat) : Q) ∧ 25 < 26) ∧
    ((run (mkWEnv "26" "99" "90" true (fun _ => CreateOutcome.created))).promptCount = none ∧
      ((run (mkWEnv "26" "99" "90" true
        (fun _ => CreateOutcome.created))).calls.filter isWriteCall) = []) := by
  refine ⟨⟨by decide, by decide⟩, ?_⟩
  have h := C4_limit_exceeded (mkWEnv "26" "99" "90" true (fun _ => CreateOutcome.created))
    wLine wHead none wItemSerial "99" 26
    ⟨by decide, rfl, rfl, rfl, rfl, by decide, rfl, by decide⟩ rfl rfl rfl (by decide)
    (by decide)
  exact ⟨h.2.1, h.2.2.2⟩

theorem num_five_sub_three : num (some "5") - num (some "3") = 2 := by
  have h5 : num (some "5") = 5 := by decide
  have h3 : num (some "3") = 3 := by decide
  rw [h5, h3]
  norm_num

/-- C8.  The over-receipt warning is shown exactly when the parsed
requested quantity strictly exceeds the parsed remaining quantity, it
displays the literal difference requested minus remaining, and if the
operator cancels at this warning the run ends with the user-cancelled
error with no remote write call issued (only the five read lookups have
run). -/
theorem C8_over_receipt_warning (env : Env) (pl : POLine) (hd : POHead) (w : Option Unit)
    (itm : ItemData) (rstq : String)
    (g : GoodLookups env pl hd w itm rstq)
    (hpw : env.proceedWms = true) :
    ((run env).overWarn ≠ none ↔ num (some env.RVQA) > num (some rstq)) ∧
    (num (some env.RVQA) > num (some rstq) →
      (run env).overWarn = some (num (some env.RVQA) - num (some rstq))) ∧
    (num (some env.RVQA) > num (some rstq) → env.proceedOver = false →
      (run env).outcome = some RunErr.cancelled ∧
      (run env).calls = lookupCalls env ∧
      ((run env).calls.filter isWriteCall) = []) := by
  have hrb := run_reaches_branch env pl hd w itm rstq g
  have how : (run env).overWarn = overDiff env.RVQA rstq := by
    rw [hrb]
    exact afterLookups_overWarn env pl hd w.isSome itm rstq "" (lookupCalls env) hpw
  refine ⟨?_, ?_, ?_⟩
  · rw [how]
    unfold overDiff
    split
    · next h => simpa using h
    · next h => simpa using h
  · intro hgt
    rw [how]
    unfold overDiff
    rw [if_pos hgt]
  · intro hgt hpo
    rw [hrb]
    unfold afterLookups
    simp only [hpw, Bool.not_true, Bool.and_false, Bool.false_eq_true, if_false]
    have hsome : (overDiff env.RVQA rstq).isSome = true := by
      unfold overDiff
      rw [if_pos hgt]
      rfl
    simp only [hpo, hsome, Bool.not_false, Bool.and_true, if_true]
    exact ⟨rfl, rfl, lookupCalls_no_writes env⟩

/-- C8 witness: requested quantity 5 against remaining 3 shows the
warning with the literal difference 2, and the cancelling operator ends
the run user-cancelled with no write calls issued. -/
theorem C8_over_receipt_warning_witness :
    (num (some (mkWEnv "5" "3" "90" false (fun _ => CreateOutcome.created)).RVQA) >
        num (some "3") ∧
      (mkWEnv "5" "3" "90" false (fun _ => CreateOutcome.created)).proceedOver = false) ∧
    ((run (mkWEnv "5" "3" "90" false (fun _ => CreateOutcome.created))).outcome =
        some RunErr.cancelled ∧
      (run (mkWEnv "5" "3" "90" false (fun _ => CreateOutcome.created))).overWarn = some 2 ∧
      ((run (mkWEnv "5" "3" "90" false
        (fun _ => CreateOutcome.created))).calls.filter isWriteCall) = []) := by
  have h := C8_over_receipt_warning (mkWEnv "5" "3" "90" false (fun _ => CreateOutcome.created))
    wLine wHead none wItemSerial "3"
    ⟨by decide, rfl, rfl, rfl, rfl, by decide, rfl, by decide⟩ rfl
  have hgt : num (some (mkWEnv "5" "3" "90" false
      (fun _ => CreateOutcome.created)).RVQA) > num (some "3") := by decide
  refine ⟨⟨hgt, rfl⟩, (h.2.2 hgt rfl).1, ?_, (h.2.2 hgt rfl).2.2⟩
  have hov := h.2.1 hgt
  rw [hov]
  show some (num (some "5") - num (some "3")) = some 2
  rw [num_five_sub_three]

/-- C2.  With the engine reached and every engine call succeeding, exactly
the terminal status 90 makes the run succeed, with the tracking list
cleared and no remote deletion; every other status fails the run with a
processing error carrying the diagnostic category derived from the status
(header-level for 15 and 20, package- or line-level for 25, 30, 35 and 40,
other otherwise), after compensation deleted exactly the tracked
records. -/
theorem C2_terminal_status (env : Env) (pl : POLine) (hd : POHead) (w : Option Unit)
    (itm : ItemData) (rstq : String) (N : Nat) (serials : List String) (msgn stat : String)
    (g : GoodLookups env pl hd w itm rstq)
    (hpw : env.proceedWms = true) (hpo : env.proceedOver = true) (hindi : itm.INDI = "2")
    (hq : num (some env.RVQA) = ((N : Nat) : Q)) (hN : N ≤ 25)
    (hsave : saveSerials (num (some env.RVQA)) ((List.range N).map env.serialInput) =
      SerialSave.ok serials)
    (hchk : ∀ s ∈ serials, checkSerOne env.ITNO s (env.itmLotResp s) = CheckResult.available)
    (hadd : ∀ s ∈ serials, env.equipAdd s = CreateOutcome.created)
    (gp : GoodProc env.procEnv msgn stat) :
    ((run env).outcome = none ↔ stat = "90") ∧
    (stat = "90" → (run env).tracked = [] ∧ (run env).deletions = []) ∧
    (stat ≠ "90" →
      (run env).outcome =
        some (RunErr.procFailed (ProcErr.processing stat (diagCategory stat))) ∧
      (run env).deletions.map Prod.fst = serials.map (fun s => EquipRec.mk env.ITNO s) ∧
      (run env).tracked = []) ∧
    (∀ st, (["15", "20"] : List String).contains st = true →
      diagCategory st = DiagCategory.header) ∧
    (∀ st, (["25", "30", "35", "40"] : List String).contains st = true →
      diagCategory st = DiagCategory.packageLine) ∧
    (∀ st, (["15", "20"] : List String).contains st = false →
      (["25", "30", "35", "40"] : List String).contains st = false →
      diagCategory st = DiagCategory.other) := by
  have hcat1 : ∀ st, (["15", "20"] : List String).contains st = true →
      diagCategory st = DiagCategory.header := by
    intro st h
    have hm : st ∈ (["15", "20"] : List String) := List.elem_iff.mp h
    simp only [List.mem_cons, List.not_mem_nil, or_false] at hm
    rcases hm with rfl | rfl <;> decide
  have hcat2 : ∀ st, (["25", "30", "35", "40"] : List String).contains st = true →
      diagCategory st = DiagCategory.packageLine := by
    intro st h
    have hm : st ∈ (["25", "30", "35", "40"] : List String) := List.elem_iff.mp h
    simp only [List.mem_cons, List.not_mem_nil, or_false] at hm
    rcases hm with rfl | rfl | rfl | rfl <;> decide
  have hcat3 : ∀ st, (["15", "20"] : List String).contains st = false →
      (["25", "30", "35", "40"] : List String).contains st = false →
      diagCategory st = DiagCategory.other := by
    intro st h1 h2
    have h1p : ¬(st = "15" ∨ st = "20") := by
      rintro (rfl | rfl) <;> simp at h1
    have h2p : ¬(st = "25" ∨ st = "30" ∨ st = "35" ∨ st = "40") := by
      rintro (rfl | rfl | rfl | rfl) <;> simp at h2
    simp [diagCategory, h1p, h2p]
  have heq : run env = _ :=
    (run_serial_eq env pl hd w itm rstq g hpw hpo hindi).trans
      (serialFlow_reduce env (ctxOf env pl hd itm "") (lookupCalls env)
        (w.isSome && !(pl.GETY == "24")) (overDiff env.RVQA rstq) N serials hq hN hsave
        hchk hadd)
  simp only [] at heq
  rw [process_good (ctxOf env pl hd itm "") env.procEnv
    (serials.map (fun s => RcptLine.mk (some s) "1" none))
    (serials.map (fun s => EquipRec.mk (ctxOf env pl hd itm "").ITNO s))
    env.equipDel msgn stat gp.hh gp.hm gp.hp gp.hl gp.hprc gp.hst] at heq
  by_cases hstat : stat = "90"
  · rw [if_pos hstat] at heq
    simp only [] at heq
    rw [heq]
    exact ⟨by simp [hstat], fun _ => ⟨rfl, rfl⟩, fun hc => absurd hstat hc,
      hcat1, hcat2, hcat3⟩
  · rw [if_neg hstat] at heq
    have htracked := (run_compInv env).1
    have hout : (run env).outcome =
        some (RunErr.procFailed (ProcErr.processing stat (diagCategory stat))) := by
      rw [heq]
      by_cases hemp :
          (serials.map (fun s => EquipRec.mk (ctxOf env pl hd itm "").ITNO s)).isEmpty
      · rw [if_pos hemp]
      · rw [if_neg hemp]
    have hcre : (run env).created = serials.map (fun s => EquipRec.mk env.ITNO s) := by
      rw [heq]
      by_cases hemp :
          (serials.map (fun s => EquipRec.mk (ctxOf env pl hd itm "").ITNO s)).isEmpty
      · rw [if_pos hemp]
        rfl
      · rw [if_neg hemp]
        rfl
    refine ⟨by simp [hout, hstat], fun hc => absurd hc hstat, fun _ => ⟨hout, ?_, htracked⟩,
      hcat1, hcat2, hcat3⟩
    have hdel := (run_compInv env).2.2.1 (by rw [hout]; simp)
    rw [hdel, hcre]

/-- C2 witness: with terminal status 25 the run fails with a package- or
line-level processing error and both created records are deleted. -/
theorem C2_terminal_status_witness :
    (("25" : String) ≠ "90" ∧
      num (some (mkWEnv "2" "5" "25" true (fun _ => CreateOutcome.created)).RVQA) =
        ((2 : Nat) : Q) ∧
      saveSerials (num (some (mkWEnv "2" "5" "25" true (fun _ => CreateOutcome.created)).RVQA))
        ((List.range 2).map (mkWEnv "2" "5" "25" true
          (fun _ => CreateOutcome.created)).serialInput) =
        SerialSave.ok ["SER-1", "SER-2"]) ∧
    ((run (mkWEnv "2" "5" "25" true (fun _ => CreateOutcome.created))).outcome =
        some (RunErr.procFailed (ProcErr.processing "25" (diagCategory "25"))) ∧
      (run (mkWEnv "2" "5" "25" true (fun _ => CreateOutcome.created))).deletions.map
          Prod.fst =
        ["SER-1", "SER-2"].map (fun s => EquipRec.mk "ITEM1" s) ∧
      (run (mkWEnv "2" "5" "25" true (fun _ => CreateOutcome.created))).tracked = []) := by
  have h := C2_terminal_status (mkWEnv "2" "5" "25" true (fun _ => CreateOutcome.created))
    wLine wHead none wItemSerial "5" 2 ["SER-1", "SER-2"] "MSG1" "25"
    ⟨by decide, rfl, rfl, rfl, rfl, by decide, rfl, by decide⟩ rfl rfl rfl (by decide)
    (by decide) (by decide) (fun s _ => rfl) (fun s _ => rfl)
    ⟨rfl, by decide, rfl, fun i => rfl, rfl, rfl⟩
  exact ⟨⟨by decide, by decide, by decide⟩, h.2.2.1 (by decide)⟩

/-! ### C3: line-submission shape -/

theorem filter_map_none (p : MICall → Bool) (f : String → MICall) (l : List String)
    (h : ∀ x, p (f x) = false) : (l.map f).filter p = [] := by
  induction l with
  | nil => rfl
  | cons a t ih => simp [h a, ih]

theorem filter_map_all (p : MICall → Bool) (f : RcptLine → MICall) (l : List RcptLine)
    (h : ∀ x, p (f x) = true) : (l.map f).filter p = l.map f := by
  induction l with
  | nil => rfl
  | cons a t ih => simp [h a, ih]

/-- C3.  For every requested quantity N within the cap of 25, the serial
branch opens exactly N entry fields and, on a run in which every remote
call succeeds with terminal status 90, issues exactly N AddWhsLine
requests, one per entered serial, each carrying quantity 1, that serial as
the batch number, no expiration date, and the single pack number, under
exactly one AddWhsPack request. -/
theorem C3_serial_lines (env : Env) (pl : POLine) (hd : POHead) (w : Option Unit)
    (itm : ItemData) (rstq : String) (N : Nat) (serials : List String) (msgn : String)
    (g : GoodLookups env pl hd w itm rstq)
    (hpw : env.proceedWms = true) (hpo : env.proceedOver = true) (hindi : itm.INDI = "2")
    (hq : num (some env.RVQA) = ((N : Nat) : Q)) (hN : N ≤ 25)
    (hsave : saveSerials (num (some env.RVQA)) ((List.range N).map env.serialInput) =
      SerialSave.ok serials)
    (hchk : ∀ s ∈ serials, checkSerOne env.ITNO s (env.itmLotResp s) = CheckResult.available)
    (hadd : ∀ s ∈ serials, env.equipAdd s = CreateOutcome.created)
    (gp : GoodProc env.procEnv msgn "90") :
    (run env).promptCount = some N ∧
    serials.length = N ∧
    (run env).outcome = none ∧
    (run env).calls.filter (fun mc => mc.transaction == "AddWhsLine") =
      serials.map (fun s =>
        mkWhsLine (ctxOf env pl hd itm "") msgn (RcptLine.mk (some s) "1" none)) ∧
    ((run env).calls.filter (fun mc => mc.transaction == "AddWhsLine")).length = N ∧
    (run env).calls.filter (fun mc => mc.transaction == "AddWhsPack") =
      [mkWhsPack (ctxOf env pl hd itm "") msgn] ∧
    (∀ mc ∈ (run env).calls.filter (fun mc => mc.transaction == "AddWhsLine"),
      List.lookup "RVQA" mc.record = some "1" ∧
      List.lookup "PACN" mc.record = some (packNumber (ctxOf env pl hd itm "")) ∧
      List.lookup "EXPI" mc.record = none ∧
      ∃ s ∈ serials, List.lookup "BANO" mc.record = some s) := by
  have heq : run env = _ :=
    (run_serial_eq env pl hd w itm rstq g hpw hpo hindi).trans
      (serialFlow_reduce env (ctxOf env pl hd itm "") (lookupCalls env)
        (w.isSome && !(pl.GETY == "24")) (overDiff env.RVQA rstq) N serials hq hN hsave
        hchk hadd)
  simp only [] at heq
  rw [process_good (ctxOf env pl hd itm "") env.procEnv
    (serials.map (fun s => RcptLine.mk (some s) "1" none))
    (serials.map (fun s => EquipRec.mk (ctxOf env pl hd itm "").ITNO s))
    env.equipDel msgn "90" gp.hh gp.hm gp.hp gp.hl gp.hprc gp.hst] at heq
  rw [if_pos rfl] at heq
  simp only [] at heq
  obtain ⟨hser, -, -⟩ := saveSerials_ok_inv _ _ _ hsave
  have hlen : serials.length = N := by
    rw [hser]
    simp
  have hline : (run env).calls.filter (fun mc => mc.transaction == "AddWhsLine") =
      serials.map (fun s =>
        mkWhsLine (ctxOf env pl hd itm "") msgn (RcptLine.mk (some s) "1" none)) := by
    rw [heq]
    simp only [procCalls, List.filter_append]
    rw [filter_map_none (fun mc => mc.transaction == "AddWhsLine")
        (fun s => mkGetItmLot (ctxOf env pl hd itm "").ITNO s) serials (fun s => rfl)]
    rw [filter_map_none (fun mc => mc.transaction == "AddWhsLine")
        (mkEquipAdd (ctxOf env pl hd itm "")) serials (fun s => rfl)]
    rw [filter_map_all (fun mc => mc.transaction == "AddWhsLine")
        (mkWhsLine (ctxOf env pl hd itm "") msgn)
        (serials.map (fun s => RcptLine.mk (some s) "1" none)) (fun x => rfl)]
    simp [lookupCalls, mkGetLine, mkGetHead, mkWmsGet, mkGetItmBasic, mkGetBasicData2,
      mkWhsHead, mkWhsPack, mkPrc, mkGetWhsHead]
  have hpack : (run env).calls.filter (fun mc => mc.transaction == "AddWhsPack") =
      [mkWhsPack (ctxOf env pl hd itm "") msgn] := by
    rw [heq]
    simp only [procCalls, List.filter_append]
    rw [filter_map_none (fun mc => mc.transaction == "AddWhsPack")
        (fun s => mkGetItmLot (ctxOf env pl hd itm "").ITNO s) serials (fun s => rfl)]
    rw [filter_map_none (fun mc => mc.transaction == "AddWhsPack")
        (mkEquipAdd (ctxOf env pl hd itm "")) serials (fun s => rfl)]
    have hmap : ((serials.map (fun s => RcptLine.mk (some s) "1" none)).map
        (mkWhsLine (ctxOf env pl hd itm "") msgn)).filter
          (fun mc => mc.transaction == "AddWhsPack") = [] := by
      rw [List.map_map]
      exact filter_map_none _ _ serials (fun s => rfl)
    rw [hmap]
    simp [lookupCalls, mkGetLine, mkGetHead, mkWmsGet, mkGetItmBasic, mkGetBasicData2,
      mkWhsHead, mkWhsPack, mkPrc, mkGetWhsHead]
  refine ⟨by rw [heq], hlen, by rw [heq], hline, by rw [hline, List.length_map, hlen],
    hpack, ?_⟩
  intro mc hmc
  rw [hline] at hmc
  rcases List.mem_map.mp hmc with ⟨s, hs, rfl⟩
  have hne : s ≠ "" := serials_of_ok_nonempty _ _ _ hsave s hs
  exact ⟨lookup_line_RVQA _ _ _, lookup_line_PACN _ _ _,
    lookup_line_EXPI_none _ _ _, ⟨s, hs, lookup_line_BANO _ _ s hne⟩⟩

/-- C3 witness: quantity 2 prompts two identifier fields, and the
successful run submits exactly two quantity-1 lines under one single
pack. -/
theorem C3_serial_lines_witness :
    (run (mkWEnv "2" "5" "90" true (fun _ => CreateOutcome.created))).promptCount =
      some 2 ∧
    (run (mkWEnv "2" "5" "90" true (fun _ => CreateOutcome.created))).outcome = none ∧
    ((run (mkWEnv "2" "5" "90" true
        (fun _ => CreateOutcome.created))).calls.filter
      (fun mc => mc.transaction == "AddWhsLine")).length = 2 := by
  have h := C3_serial_lines (mkWEnv "2" "5" "90" true (fun _ => CreateOutcome.created))
    wLine wHead none wItemSerial "5" 2 ["SER-1", "SER-2"] "MSG1"
    ⟨by decide, rfl, rfl, rfl, rfl, by decide, rfl, by decide⟩ rfl rfl rfl (by decide)
    (by decide) (by decide) (fun s _ => rfl) (fun s _ => rfl)
    ⟨rfl, by decide, rfl, fun i => rfl, rfl, rfl⟩
  exact ⟨h.1, h.2.2.1, h.2.2.2.2.1⟩

/-! ### C9: quantity parsing and the zero-quantity serial run -/

/-- C9 counterexample: a received quantity parsing to a negative number is
not a positive parse, and the serial branch does prompt for zero
identifiers, but the empty batch is then rejected with a (vacuous)
duplicates error instead of accepted: the set-size test compares the zero
entered serials against the negative quantity. -/
theorem C9_counterexample :
    num (some "-3") < 0 ∧
    (run (mkWEnv "-3" "99" "90" true (fun _ => CreateOutcome.created))).promptCount =
      some 0 ∧
    (run (mkWEnv "-3" "99" "90" true (fun _ => CreateOutcome.created))).outcome =
      some (RunErr.serialInputRejected (SerialSave.duplicates [])) ∧
    (run (mkWEnv "-3" "99" "90" true
        (fun _ => CreateOutcome.created))).calls.filter isWriteCall = [] := by
  decide

/-- C9 (amended).  The quantity helper interprets a string by stripping
every character other than digits, dot and minus, parsing the remainder as
a decimal, and yielding 0 for a null, empty or unparsable value; when the
received-quantity field parses to exactly zero, the serial branch prompts
for zero identifiers, the empty batch passes validation, and the
successful run submits zero receipt lines.  (A negative parse also prompts
for zero identifiers but rejects the empty batch; see the
counterexample.) -/
theorem C9_zero_quantity_accepted (env : Env) (pl : POLine) (hd : POHead) (w : Option Unit)
    (itm : ItemData) (rstq : String) (msgn : String)
    (g : GoodLookups env pl hd w itm rstq)
    (hpw : env.proceedWms = true) (hpo : env.proceedOver = true) (hindi : itm.INDI = "2")
    (hq : num (some env.RVQA) = 0)
    (gp : GoodProc env.procEnv msgn "90") :
    num none = 0 ∧
    num (some "") = 0 ∧
    (∀ s, parseDec (s.data.filter numCharOk) = none → num (some s) = 0) ∧
    (∀ s q, s ≠ "" → parseDec (s.data.filter numCharOk) = some q → num (some s) = q) ∧
    (run env).promptCount = some 0 ∧
    (run env).outcome = none ∧
    (run env).calls.filter (fun mc => mc.transaction == "AddWhsLine") = [] := by
  have hq0 : num (some env.RVQA) = ((0 : Nat) : Q) := by
    rw [hq]
    norm_num
  have hsave : saveSerials (num (some env.RVQA)) ((List.range 0).map env.serialInput) =
      SerialSave.ok [] := by
    rw [hq]
    simp only [List.range_zero, List.map_nil]
    decide
  have heq : run env = _ :=
    (run_serial_eq env pl hd w itm rstq g hpw hpo hindi).trans
      (serialFlow_reduce env (ctxOf env pl hd itm "") (lookupCalls env)
        (w.isSome && !(pl.GETY == "24")) (overDiff env.RVQA rstq) 0 [] hq0 (by norm_num)
        hsave (fun s hs => absurd hs (List.not_mem_nil s))
        (fun s hs => absurd hs (List.not_mem_nil s)))
  simp only [] at heq
  rw [process_good (ctxOf env pl hd itm "") env.procEnv
    (([] : List String).map (fun s => RcptLine.mk (some s) "1" none))
    (([] : List String).map (fun s => EquipRec.mk (ctxOf env pl hd itm "").ITNO s))
    env.equipDel msgn "90" gp.hh gp.hm gp.hp gp.hl gp.hprc gp.hst] at heq
  rw [if_pos rfl] at heq
  simp only [] at heq
  refine ⟨by decide, by decide, ?_, ?_, by rw [heq], by rw [heq], ?_⟩
  · intro s h
    by_cases hs : s = ""
    · subst hs
      decide
    · simp only [num, if_neg hs]
      rw [h]
  · intro s q hs h
    simp only [num, if_neg hs]
    rw [h]
  · rw [heq]
    simp [procCalls, List.filter_append, lookupCalls, mkGetLine, mkGetHead, mkWmsGet,
      mkGetItmBasic, mkGetBasicData2, mkWhsHead, mkWhsPack, mkPrc, mkGetWhsHead]

/-- C9 witness: an unparsable received quantity yields zero prompts and a
successful submission with zero receipt lines. -/
theorem C9_zero_quantity_accepted_witness :
    num (some (mkWEnv "abc" "99" "90" true (fun _ => CreateOutcome.created)).RVQA) = 0 ∧
    (run (mkWEnv "abc" "99" "90" true (fun _ => CreateOutcome.created))).promptCount =
      some 0 ∧
    (run (mkWEnv "abc" "99" "90" true (fun _ => CreateOutcome.created))).outcome = none ∧
    (run (mkWEnv "abc" "99" "90" true
        (fun _ => CreateOutcome.created))).calls.filter
      (fun mc => mc.transaction == "AddWhsLine") = [] := by
  have h := C9_zero_quantity_accepted
    (mkWEnv "abc" "99" "90" true (fun _ => CreateOutcome.created))
    wLine wHead none wItemSerial "99" "MSG1"
    ⟨by decide, rfl, rfl, rfl, rfl, by decide, rfl, by decide⟩ rfl rfl rfl (by decide)
    ⟨rfl, by decide, rfl, fun i => rfl, rfl, rfl⟩
  exact ⟨by decide, h.2.2.2.2.1, h.2.2.2.2.2.1, h.2.2.2.2.2.2⟩

end POReceipt
